import Mathlib

/-!
Shallow embedding of the dominion DNS packet codec (Rust) in Lean 4.

Byte buffers are `List Nat` whose elements are byte values (< 256; Rust's
`&[u8]` guarantees this by type, here serializers only emit values < 256 and
parsers read whatever the list holds).  Machine integers are `Nat` with
explicit `% 256` / `% 65536` where the Rust code truncates or wraps.
Fallible code returns `Except PErr`; the `todo!()` macro (a Rust panic) is
modelled by the distinguished error `PErr.panicTodo`, and loop recursion is
fuel-indexed with the distinguished error `PErr.fuelOut` (never reached for
executions the Rust code completes, given enough fuel).
-/

namespace Dominion

/-- Parse errors of the library (`ParseError` in `src/lib.rs` plus the
`NameError` variants of `body/name.rs` that are converted into it, plus the
two artifacts of the embedding: `panicTodo` models a `todo!()` panic and
`fuelOut` models running out of recursion fuel). -/
inductive PErr where
  | headerLength (n : Nat)
  | headerFlag (field : String) (v : Nat)
  | invalidJump
  | excesiveJumps (n : Nat)
  | labelLength (n : Nat)
  | labelContent
  | labelPrefixByte (b : Nat)
  | nameLength (n : Nat)
  | oobRead (pos : Nat)
  | panicTodo
  | fuelOut
deriving DecidableEq, Repr

/-- `binutils.rs`: `safe_u8_read`. -/
def safeU8Read (buff : List Nat) (pos : Nat) : Except PErr Nat :=
  match buff.get? pos with
  | some b => .ok b
  | none => .error (.oobRead pos)

/-- `binutils.rs`: `safe_u16_read` (big endian). -/
def safeU16Read (buff : List Nat) (pos : Nat) : Except PErr Nat :=
  match buff.get? pos, buff.get? (pos + 1) with
  | some hi, some lo => .ok (hi * 256 + lo)
  | _, _ => .error (.oobRead pos)

/-- `binutils.rs`: `safe_i32_read` (big endian); we model the `i32` by its
32-bit pattern as a `Nat`. -/
def safeI32Read (buff : List Nat) (pos : Nat) : Except PErr Nat :=
  match buff.get? pos, buff.get? (pos + 1), buff.get? (pos + 2), buff.get? (pos + 3) with
  | some b0, some b1, some b2, some b3 =>
      .ok (b0 * 16777216 + b1 * 65536 + b2 * 256 + b3)
  | _, _, _, _ => .error (.oobRead pos)

/-- `binutils.rs`: `safe_ipv4_read`: the four address octets. -/
def safeIpv4Read (buff : List Nat) (pos : Nat) : Except PErr (Nat × Nat × Nat × Nat) :=
  match buff.get? pos, buff.get? (pos + 1), buff.get? (pos + 2), buff.get? (pos + 3) with
  | some b0, some b1, some b2, some b3 => .ok (b0, b1, b2, b3)
  | _, _, _, _ => .error (.oobRead pos)

/-- `binutils.rs`: `push_u16` (big-endian bytes of a `u16`). -/
def pushU16 (target : List Nat) (n : Nat) : List Nat :=
  target ++ [n / 256 % 256, n % 256]

/-- `binutils.rs`: `push_i32` (big-endian bytes of the 32-bit pattern). -/
def pushI32 (target : List Nat) (n : Nat) : List Nat :=
  target ++ [n / 16777216 % 256, n / 65536 % 256, n / 256 % 256, n % 256]

/-- `body/name.rs`: `MAX_JUMPS`. -/
def MAX_JUMPS : Nat := 5

/-- `body/name.rs`: `MAX_LABEL_SIZE`. -/
def MAX_LABEL_SIZE : Nat := 63

/-- `body/name.rs`: `MAX_NAME_SIZE`. -/
def MAX_NAME_SIZE : Nat := 255

/-- `body/name.rs`: `struct Name` — the hierarchical (TLD-first) list of
labels plus the cached `len : u8` field. A label is its list of bytes. -/
structure Name where
  labels : List (List Nat)
  len : Nat
deriving DecidableEq, Repr

/-- `body/name.rs`: `valid_label` — first byte ASCII alphabetic, remaining
bytes alphanumeric or `-`. -/
def validLabel (label : List Nat) : Bool :=
  match label with
  | [] => false
  | b :: rest =>
      ((65 ≤ b && b ≤ 90) || (97 ≤ b && b ≤ 122)) &&
      rest.all fun x =>
        x = 45 || (48 ≤ x && x ≤ 57) || (97 ≤ x && x ≤ 122) || (65 ≤ x && x ≤ 90)

/-- `body/name.rs`: `Name::push_bytes` acting on the loop state
`(labels, len)`; the `u8` addition to `len` wraps modulo 256. -/
def pushBytes (labels : List (List Nat)) (len : Nat) (bytes : List Nat) :
    Except PErr (List (List Nat) × Nat) :=
  if validLabel bytes then
    .ok (labels ++ [bytes], (len + (bytes.length + 1)) % 256)
  else
    .error .labelContent

/-- `body/name.rs`: `enum LabelMeta`. -/
inductive LabelMeta where
  | done
  | size (s : Nat)
  | pointer (ptr : Nat)
deriving DecidableEq, Repr

/-- `body/name.rs`: `read_label_metadata`. Byte `0` terminates, `1..=63` is a
literal label size, `192..` is a two-byte pointer whose low 14 bits (the
`u16` XOR `0xC000`) are the target offset, anything else is an invalid
prefix. -/
def readLabelMetadata (buff : List Nat) (pos : Nat) : Except PErr LabelMeta :=
  match safeU8Read buff pos with
  | .error e => .error e
  | .ok b =>
    if b = 0 then .ok .done
    else if b ≤ 63 then .ok (.size b)
    else if 192 ≤ b then
      match safeU16Read buff pos with
      | .error e => .error e
      | .ok u => .ok (.pointer (u ^^^ 49152))
    else .error (.labelPrefixByte b)

/-- Result of the name-parsing loop: the name, the bytes consumed in the
outer stream, the final jump counter and (ghost instrumentation, not present
in the Rust code) the list of `(pointer offset, target)` pairs followed. -/
structure NameRes where
  name : Name
  size : Nat
  jumps : Nat
  trace : List (Nat × Nat)
deriving DecidableEq, Repr

/-- `body/name.rs`: the loop of `Name::parse`, with the mutable state
(`pos`, `size`, `jumps`, `name.labels`, `name.len`) passed explicitly and a
fuel argument for termination.  The guard order is that of the source match
arms. -/
def nameParseLoop (buff : List Nat) :
    Nat → Nat → Nat → Nat → List (List Nat) → Nat → List (Nat × Nat) →
    Except PErr NameRes
  | 0, _, _, _, _, _, _ => .error .fuelOut
  | fuel + 1, pos, size, jumps, labels, len, trace =>
    if jumps > MAX_JUMPS then .error (.excesiveJumps jumps)
    else
      match readLabelMetadata buff pos with
      | .error e => .error e
      | .ok (.pointer ptr) =>
        if ptr ≥ pos then .error .invalidJump
        else if jumps = 0 then
          nameParseLoop buff fuel ptr (size + 2) (jumps + 1) labels len ((pos, ptr) :: trace)
        else
          nameParseLoop buff fuel ptr size (jumps + 1) labels len ((pos, ptr) :: trace)
      | .ok (.size s) =>
        if s > MAX_LABEL_SIZE then .error (.labelLength s)
        else if buff.length ≤ pos + s then .error (.labelLength s)
        else if len + s > MAX_NAME_SIZE then .error (.nameLength (len + s))
        else
          match pushBytes labels len ((buff.drop (pos + 1)).take s) with
          | .error e => .error e
          | .ok (labels', len') =>
            if jumps = 0 then
              nameParseLoop buff fuel (pos + s + 1) (size + s + 1) jumps labels' len' trace
            else
              nameParseLoop buff fuel (pos + s + 1) size jumps labels' len' trace
      | .ok .done =>
        if jumps = 0 then .ok ⟨⟨labels.reverse, len⟩, size + 1, jumps, trace⟩
        else .ok ⟨⟨labels.reverse, len⟩, size, jumps, trace⟩

/-- Fuel that over-approximates the number of iterations any terminating run
of the Rust loop performs on `buff`. -/
def nameFuel (buff : List Nat) : Nat := 7 * buff.length + 8

/-- `body/name.rs`: `Name::parse`, returning the name and the bytes consumed
at `pos` in the outer stream. -/
def Name.parse (buff : List Nat) (pos : Nat) : Except PErr (Name × Nat) :=
  (nameParseLoop buff (nameFuel buff) pos 0 0 [] 0 []).map fun r => (r.name, r.size)

/-- `body/name.rs`: `Name::serialize` — emit the labels leaf-first
(`iter_human` order), each as `<len><bytes>`, then a zero terminator. -/
def Name.serialize (name : Name) (packet : List Nat) : List Nat :=
  packet ++ (name.labels.reverse.flatMap fun l => (l.length % 256) :: l) ++ [0]

/-- `body/name.rs`: `Name::new`. -/
def Name.new : Name := ⟨[], 0⟩

/-- `body/name.rs`: `Name::is_subdomain` — `self.is_subdomain sub` holds when
`sub` is a subdomain of `self`: not more labels in `self`, and the shared
hierarchical positions carry equal labels. -/
def Name.isSubdomain (self sub : Name) : Bool :=
  if self.labels.length > sub.labels.length then false
  else
    (List.zip self.labels sub.labels).foldl (fun acc xy => acc && (xy.1 = xy.2 : Bool)) true

/-- Fuel-indexed helper for `trailingZeros` (structural recursion so that it
reduces definitionally). -/
def tzAux : Nat → Nat → Nat
  | 0, _ => 0
  | fuel + 1, n => if n % 2 = 1 || n ≤ 1 then 0 else tzAux fuel (n / 2) + 1

/-- `u16::trailing_zeros` for the nonzero mask constants used in
`header.rs` (never applied to 0 there). -/
def trailingZeros (n : Nat) : Nat := tzAux n n

/-- `header.rs`: `mask_shift` — `(n & mask) >> mask.trailing_zeros()`. -/
def maskShift (mask n : Nat) : Nat := (n &&& mask) >>> trailingZeros mask

/-- `header.rs`: `unshift` — `n << mask.trailing_zeros()`. -/
def unshift (mask n : Nat) : Nat := n <<< trailingZeros mask

/-- `header.rs`: `QueryResponse` (bit 15). -/
inductive QueryResponse where
  | query
  | response
deriving DecidableEq, Repr

/-- Enum discriminant of `QueryResponse`. -/
def QueryResponse.val : QueryResponse → Nat
  | .query => 0
  | .response => 1

/-- `From<u16> for QueryResponse` (the `_ => unreachable!` arm of the macro
cannot fire for a 1-bit field and is mapped to the last variant). -/
def QueryResponse.fromU16 (n : Nat) : QueryResponse :=
  match maskShift 0b1000000000000000 n with
  | 0 => .query
  | _ => .response

/-- `From<QueryResponse> for u16`. -/
def QueryResponse.toU16 (f : QueryResponse) : Nat := unshift 0b1000000000000000 f.val

/-- `header.rs`: `OpCode` (bits 11-14). -/
inductive OpCode where
  | query
  | iquery
  | status
  | notify
  | update
  | dso
deriving DecidableEq, Repr

/-- Enum discriminant of `OpCode`. -/
def OpCode.val : OpCode → Nat
  | .query => 0
  | .iquery => 1
  | .status => 2
  | .notify => 4
  | .update => 5
  | .dso => 6

/-- `TryFrom<u16> for OpCode` (reserved values are a `HeaderFlag` error). -/
def OpCode.tryFromU16 (n : Nat) : Except PErr OpCode :=
  match maskShift 0b0111100000000000 n with
  | 0 => .ok .query
  | 1 => .ok .iquery
  | 2 => .ok .status
  | 4 => .ok .notify
  | 5 => .ok .update
  | 6 => .ok .dso
  | v => .error (.headerFlag "OpCode" v)

/-- `From<OpCode> for u16`. -/
def OpCode.toU16 (f : OpCode) : Nat := unshift 0b0111100000000000 f.val

/-- `header.rs`: `AuthoritativeAnswer` (bit 10). -/
inductive AuthoritativeAnswer where
  | nonAuthoritative
  | authoritative
deriving DecidableEq, Repr

/-- Enum discriminant of `AuthoritativeAnswer`. -/
def AuthoritativeAnswer.val : AuthoritativeAnswer → Nat
  | .nonAuthoritative => 0
  | .authoritative => 1

/-- `From<u16> for AuthoritativeAnswer`. -/
def AuthoritativeAnswer.fromU16 (n : Nat) : AuthoritativeAnswer :=
  match maskShift 0b0000010000000000 n with
  | 0 => .nonAuthoritative
  | _ => .authoritative

/-- `From<AuthoritativeAnswer> for u16`. -/
def AuthoritativeAnswer.toU16 (f : AuthoritativeAnswer) : Nat :=
  unshift 0b0000010000000000 f.val

/-- `header.rs`: `TrunCation` (bit 9). -/
inductive TrunCation where
  | notTruncated
  | truncated
deriving DecidableEq, Repr

/-- Enum discriminant of `TrunCation`. -/
def TrunCation.val : TrunCation → Nat
  | .notTruncated => 0
  | .truncated => 1

/-- `From<u16> for TrunCation`. -/
def TrunCation.fromU16 (n : Nat) : TrunCation :=
  match maskShift 0b0000001000000000 n with
  | 0 => .notTruncated
  | _ => .truncated

/-- `From<TrunCation> for u16`. -/
def TrunCation.toU16 (f : TrunCation) : Nat := unshift 0b0000001000000000 f.val

/-- `header.rs`: `RecursionDesired` (bit 8). -/
inductive RecursionDesired where
  | notDesired
  | desired
deriving DecidableEq, Repr

/-- Enum discriminant of `RecursionDesired`. -/
def RecursionDesired.val : RecursionDesired → Nat
  | .notDesired => 0
  | .desired => 1

/-- `From<u16> for RecursionDesired`. -/
def RecursionDesired.fromU16 (n : Nat) : RecursionDesired :=
  match maskShift 0b0000000100000000 n with
  | 0 => .notDesired
  | _ => .desired

/-- `From<RecursionDesired> for u16`. -/
def RecursionDesired.toU16 (f : RecursionDesired) : Nat :=
  unshift 0b0000000100000000 f.val

/-- `header.rs`: `RecursionAvailable` (bit 7). -/
inductive RecursionAvailable where
  | notAvailable
  | available
deriving DecidableEq, Repr

/-- Enum discriminant of `RecursionAvailable`. -/
def RecursionAvailable.val : RecursionAvailable → Nat
  | .notAvailable => 0
  | .available => 1

/-- `From<u16> for RecursionAvailable`. -/
def RecursionAvailable.fromU16 (n : Nat) : RecursionAvailable :=
  match maskShift 0b0000000010000000 n with
  | 0 => .notAvailable
  | _ => .available

/-- `From<RecursionAvailable> for u16`. -/
def RecursionAvailable.toU16 (f : RecursionAvailable) : Nat :=
  unshift 0b0000000010000000 f.val

/-- `header.rs`: `Zero` (bit 6, reserved). -/
inductive Zero where
  | zero
  | reserved
deriving DecidableEq, Repr

/-- Enum discriminant of `Zero`. -/
def Zero.val : Zero → Nat
  | .zero => 0
  | .reserved => 1

/-- `From<u16> for Zero`. -/
def Zero.fromU16 (n : Nat) : Zero :=
  match maskShift 0b0000000001000000 n with
  | 0 => .zero
  | _ => .reserved

/-- `From<Zero> for u16`. -/
def Zero.toU16 (f : Zero) : Nat := unshift 0b0000000001000000 f.val

/-- `header.rs`: `AuthenticData` (bit 5). -/
inductive AuthenticData where
  | notAuthentic
  | authentic
deriving DecidableEq, Repr

/-- Enum discriminant of `AuthenticData`. -/
def AuthenticData.val : AuthenticData → Nat
  | .notAuthentic => 0
  | .authentic => 1

/-- `From<u16> for AuthenticData`. -/
def AuthenticData.fromU16 (n : Nat) : AuthenticData :=
  match maskShift 0b0000000000100000 n with
  | 0 => .notAuthentic
  | _ => .authentic

/-- `From<AuthenticData> for u16`. -/
def AuthenticData.toU16 (f : AuthenticData) : Nat := unshift 0b0000000000100000 f.val

/-- `header.rs`: `CheckingDisabled` (bit 4). -/
inductive CheckingDisabled where
  | enabled
  | disabled
deriving DecidableEq, Repr

/-- Enum discriminant of `CheckingDisabled`. -/
def CheckingDisabled.val : CheckingDisabled → Nat
  | .enabled => 0
  | .disabled => 1

/-- `From<u16> for CheckingDisabled`. -/
def CheckingDisabled.fromU16 (n : Nat) : CheckingDisabled :=
  match maskShift 0b0000000000010000 n with
  | 0 => .enabled
  | _ => .disabled

/-- `From<CheckingDisabled> for u16`. -/
def CheckingDisabled.toU16 (f : CheckingDisabled) : Nat :=
  unshift 0b0000000000010000 f.val

/-- `header.rs`: `ResponseCode` (bits 0-3). -/
inductive ResponseCode where
  | noError
  | formErr
  | servFail
  | nxDomain
  | notImp
  | refused
deriving DecidableEq, Repr

/-- Enum discriminant of `ResponseCode`. -/
def ResponseCode.val : ResponseCode → Nat
  | .noError => 0
  | .formErr => 1
  | .servFail => 2
  | .nxDomain => 3
  | .notImp => 4
  | .refused => 5

/-- `TryFrom<u16> for ResponseCode` (reserved values are a `HeaderFlag`
error). -/
def ResponseCode.tryFromU16 (n : Nat) : Except PErr ResponseCode :=
  match maskShift 0b0000000000001111 n with
  | 0 => .ok .noError
  | 1 => .ok .formErr
  | 2 => .ok .servFail
  | 3 => .ok .nxDomain
  | 4 => .ok .notImp
  | 5 => .ok .refused
  | v => .error (.headerFlag "ResponseCode" v)

/-- `From<ResponseCode> for u16`. -/
def ResponseCode.toU16 (f : ResponseCode) : Nat := unshift 0b0000000000001111 f.val

/-- `header.rs`: `struct Flags`. -/
structure Flags where
  qr : QueryResponse
  opcode : OpCode
  aa : AuthoritativeAnswer
  tc : TrunCation
  rd : RecursionDesired
  ra : RecursionAvailable
  z : Zero
  ad : AuthenticData
  cd : CheckingDisabled
  rcode : ResponseCode
deriving DecidableEq, Repr

/-- `header.rs`: `TryFrom<u16> for Flags`; the struct literal evaluates its
fields in source order, so an invalid opcode errors before an invalid
rcode. -/
def Flags.tryFromU16 (n : Nat) : Except PErr Flags := do
  let qr := QueryResponse.fromU16 n
  let opcode ← OpCode.tryFromU16 n
  let aa := AuthoritativeAnswer.fromU16 n
  let tc := TrunCation.fromU16 n
  let rd := RecursionDesired.fromU16 n
  let ra := RecursionAvailable.fromU16 n
  let z := Zero.fromU16 n
  let ad := AuthenticData.fromU16 n
  let cd := CheckingDisabled.fromU16 n
  let rcode ← ResponseCode.tryFromU16 n
  pure ⟨qr, opcode, aa, tc, rd, ra, z, ad, cd, rcode⟩

/-- `header.rs`: `From<Flags> for u16` — OR of the shifted sub-fields. -/
def Flags.toU16 (flags : Flags) : Nat :=
  flags.qr.toU16 ||| flags.opcode.toU16 ||| flags.aa.toU16 ||| flags.tc.toU16 |||
  flags.rd.toU16 ||| flags.ra.toU16 ||| flags.z.toU16 ||| flags.ad.toU16 |||
  flags.cd.toU16 ||| flags.rcode.toU16

/-- `header.rs`: `struct DnsHeader`. -/
structure DnsHeader where
  id : Nat
  flags : Flags
  questions : Nat
  answers : Nat
  authority : Nat
  additional : Nat
deriving DecidableEq, Repr

/-- `header.rs`: `TryFrom<&[u8]> for DnsHeader`. -/
def DnsHeader.tryFrom (bytes : List Nat) : Except PErr DnsHeader :=
  if bytes.length < 12 then .error (.headerLength bytes.length)
  else do
    let id ← safeU16Read bytes 0
    let fword ← safeU16Read bytes 2
    let flags ← Flags.tryFromU16 fword
    let questions ← safeU16Read bytes 4
    let answers ← safeU16Read bytes 6
    let authority ← safeU16Read bytes 8
    let additional ← safeU16Read bytes 10
    pure ⟨id, flags, questions, answers, authority, additional⟩

/-- `header.rs`: `DnsHeader::serialize`. -/
def DnsHeader.serialize (header : DnsHeader) (target : List Nat) : List Nat :=
  pushU16 (pushU16 (pushU16 (pushU16 (pushU16 (pushU16 target header.id)
    header.flags.toU16) header.questions) header.answers) header.authority)
    header.additional

/-- `body.rs`: `enum Type` (the `types!` macro instantiation `A = 1`,
`Ns = 2`, `Cname = 5`, `Mx = 15`, plus the `Unknown(u16)` passthrough). -/
inductive RType where
  | a
  | ns
  | cname
  | mx
  | unknown (n : Nat)
deriving DecidableEq, Repr

/-- `From<u16> for Type`. -/
def RType.fromU16 (value : Nat) : RType :=
  match value with
  | 1 => .a
  | 2 => .ns
  | 5 => .cname
  | 15 => .mx
  | _ => .unknown value

/-- `From<Type> for u16`. -/
def RType.toU16 : RType → Nat
  | .a => 1
  | .ns => 2
  | .cname => 5
  | .mx => 15
  | .unknown n => n

/-- `body.rs`: `enum QType` (`Type` plus `All = 255` and `Unknown`). -/
inductive QType where
  | a
  | ns
  | cname
  | mx
  | all
  | unknown (n : Nat)
deriving DecidableEq, Repr

/-- `From<u16> for QType`. -/
def QType.fromU16 (value : Nat) : QType :=
  match value with
  | 1 => .a
  | 2 => .ns
  | 5 => .cname
  | 15 => .mx
  | 255 => .all
  | _ => .unknown value

/-- `From<QType> for u16`. -/
def QType.toU16 : QType → Nat
  | .a => 1
  | .ns => 2
  | .cname => 5
  | .mx => 15
  | .all => 255
  | .unknown n => n

/-- `body.rs`: `enum Class`. -/
inductive Class where
  | cin
  | cs
  | ch
  | hs
  | any
  | unknown (n : Nat)
deriving DecidableEq, Repr

/-- `From<u16> for Class`. -/
def Class.fromU16 (value : Nat) : Class :=
  match value with
  | 1 => .cin
  | 2 => .cs
  | 3 => .ch
  | 4 => .hs
  | 255 => .any
  | _ => .unknown value

/-- `From<Class> for u16`. -/
def Class.toU16 : Class → Nat
  | .cin => 1
  | .cs => 2
  | .ch => 3
  | .hs => 4
  | .any => 255
  | .unknown n => n

/-- `body.rs`: `struct Question`. -/
structure Question where
  name : Name
  qtype : QType
  class' : Class
deriving DecidableEq, Repr

/-- `body.rs`: `Question::parse`. -/
def Question.parse (buff : List Nat) (start : Nat) : Except PErr (Question × Nat) := do
  let (name, size) ← Name.parse buff start
  let n := start + size
  let qt ← safeU16Read buff n
  let cl ← safeU16Read buff (n + 2)
  pure (⟨name, QType.fromU16 qt, Class.fromU16 cl⟩, size + 4)

/-- `body.rs`: `Question::serialize`. -/
def Question.serialize (question : Question) (packet : List Nat) : List Nat :=
  pushU16 (pushU16 (question.name.serialize packet) question.qtype.toU16)
    question.class'.toU16

/-- `body.rs`: `struct RecordPreamble` (`ttl` is the 32-bit pattern of the
`i32`, `rdlen` the stored `u16`). -/
structure RecordPreamble where
  name : Name
  rrtype : RType
  class' : Class
  ttl : Nat
  rdlen : Nat
deriving DecidableEq, Repr

/-- `body.rs`: `RecordPreamble::parse`. -/
def RecordPreamble.parse (buff : List Nat) (pos : Nat) :
    Except PErr (RecordPreamble × Nat) := do
  let (name, size) ← Name.parse buff pos
  let n := size + pos
  let rrtype ← safeU16Read buff n
  let cl ← safeU16Read buff (n + 2)
  let ttl ← safeI32Read buff (n + 4)
  let rdlen ← safeU16Read buff (n + 8)
  pure (⟨name, RType.fromU16 rrtype, Class.fromU16 cl, ttl, rdlen⟩, size + 10)

/-- `body.rs`: `RecordPreamble::serialize` — note that the stored `rdlen` is
emitted verbatim. -/
def RecordPreamble.serialize (preamble : RecordPreamble) (packet : List Nat) : List Nat :=
  pushU16 (pushI32 (pushU16 (pushU16 (preamble.name.serialize packet)
    preamble.rrtype.toU16) preamble.class'.toU16) preamble.ttl) preamble.rdlen

/-- `body.rs`: `enum RecordData`.  The `A` payload is the four address
octets; `Unknown` carries the raw byte slice (never produced by `parse`,
which hits `todo!()` first). -/
inductive RecordData where
  | a (ip : Nat × Nat × Nat × Nat)
  | ns (name : Name)
  | cname (name : Name)
  | mx (preference : Nat) (exchange : Name)
  | unknown (bytes : List Nat)
deriving DecidableEq, Repr

/-- `body.rs`: `RecordData::parse`. The `Type::Unknown(_) => todo!()` arm is
a Rust panic, modelled as the `panicTodo` error. For `Mx` the exchange name
is parsed (and can fail) before the preference is read, as in the source. -/
def RecordData.parse (buff : List Nat) (pos : Nat) (rrtype : RType) :
    Except PErr RecordData :=
  match rrtype with
  | .a => (safeIpv4Read buff pos).map .a
  | .ns => (Name.parse buff pos).map fun (name, _) => .ns name
  | .cname => (Name.parse buff pos).map fun (name, _) => .cname name
  | .mx => do
      let (exchange, _) ← Name.parse buff (pos + 2)
      let preference ← safeU16Read buff pos
      pure (.mx preference exchange)
  | .unknown _ => .error .panicTodo

/-- `body.rs`: `RecordData::serialize`. The `Unknown` arm is `todo!()` (a
panic), so serialization returns `none` there. -/
def RecordData.serialize (data : RecordData) (packet : List Nat) : Option (List Nat) :=
  match data with
  | .a ip => some (packet ++ [ip.1, ip.2.1, ip.2.2.1, ip.2.2.2])
  | .ns name => some (name.serialize packet)
  | .cname name => some (name.serialize packet)
  | .mx preference exchange => some (exchange.serialize (pushU16 packet preference))
  | .unknown _ => none

/-- `body.rs`: `struct ResourceRecord`. -/
structure ResourceRecord where
  preamble : RecordPreamble
  data : RecordData
deriving DecidableEq, Repr

/-- `body.rs`: `ResourceRecord::parse` — preamble, then RDATA dispatched on
the type, advancing by the *stored* `rdlen`. -/
def ResourceRecord.parse (buff : List Nat) (pos : Nat) :
    Except PErr (ResourceRecord × Nat) := do
  let (preamble, size) ← RecordPreamble.parse buff pos
  let data ← RecordData.parse buff (pos + size) preamble.rrtype
  pure (⟨preamble, data⟩, size + preamble.rdlen)

/-- `body.rs`: `ResourceRecord::serialize`. -/
def ResourceRecord.serialize (rr : ResourceRecord) (packet : List Nat) : Option (List Nat) :=
  rr.data.serialize (rr.preamble.serialize packet)

/-- `lib.rs`: `struct DnsPacket`. -/
structure DnsPacket where
  header : DnsHeader
  questions : List Question
  answers : List ResourceRecord
  authority : List ResourceRecord
  additional : List ResourceRecord
deriving DecidableEq, Repr

/-- The question-section loop of `DnsPacket::try_from`: parse `count`
questions starting at `pos`, returning them with the final position. -/
def parseQuestions (buff : List Nat) : Nat → Nat → Except PErr (List Question × Nat)
  | 0, pos => .ok ([], pos)
  | count + 1, pos => do
      let (q, size) ← Question.parse buff pos
      let (rest, fin) ← parseQuestions buff count (pos + size)
      pure (q :: rest, fin)

/-- The record-section loops of `DnsPacket::try_from`: parse `count` resource
records starting at `pos`, returning them with the final position. -/
def parseRecords (buff : List Nat) : Nat → Nat → Except PErr (List ResourceRecord × Nat)
  | 0, pos => .ok ([], pos)
  | count + 1, pos => do
      let (rr, size) ← ResourceRecord.parse buff pos
      let (rest, fin) ← parseRecords buff count (pos + size)
      pure (rr :: rest, fin)

/-- `lib.rs`: `TryFrom<&[u8]> for DnsPacket`. -/
def DnsPacket.tryFrom (buff : List Nat) : Except PErr DnsPacket := do
  let header ← DnsHeader.tryFrom buff
  let (questions, p1) ← parseQuestions buff header.questions 12
  let (answers, p2) ← parseRecords buff header.answers p1
  let (authority, p3) ← parseRecords buff header.authority p2
  let (additional, _) ← parseRecords buff header.additional p3
  pure ⟨header, questions, answers, authority, additional⟩

/-- Serialize a list of resource records in order (`None` on a `todo!()`
panic in any of them). -/
def serializeRecords (records : List ResourceRecord) (out : List Nat) : Option (List Nat) :=
  match records with
  | [] => some out
  | rr :: rest => (rr.serialize out).bind (serializeRecords rest)

/-- `lib.rs`: `From<&DnsPacket> for Vec<u8>` — header, then the four
sections in order. -/
def DnsPacket.toBytes (dns : DnsPacket) : Option (List Nat) := do
  let out := dns.header.serialize []
  let out := dns.questions.foldl (fun acc q => q.serialize acc) out
  let out ← serializeRecords dns.answers out
  let out ← serializeRecords dns.authority out
  let out ← serializeRecords dns.additional out
  pure out

/-! ### Arithmetic facts about the flag bit-field codec -/

theorem extract_helper (n j k : Nat) :
    (n &&& ((2 ^ j - 1) <<< k)) >>> k = n / 2 ^ k % 2 ^ j := by
  apply Nat.eq_of_testBit_eq
  intro i
  rw [← Nat.shiftRight_eq_div_pow]
  simp only [Nat.testBit_shiftRight, Nat.testBit_land, Nat.testBit_shiftLeft,
    Nat.testBit_mod_two_pow, Nat.testBit_two_pow_sub_one, ge_iff_le,
    Nat.le_add_right, decide_True, Bool.true_and, Nat.add_sub_cancel_left]
  rw [Bool.and_comm]

theorem lor_shiftLeft_add (a : Nat) (k : Nat) :
    ∀ b, b < 2 ^ k → (a <<< k) ||| b = a * 2 ^ k + b := by
  induction k generalizing a with
  | zero =>
    intro b hb
    interval_cases b
    simp [Nat.shiftLeft_zero]
  | succ k ih =>
    intro b hb
    have hdiv2 : Nat.div2 b = b / 2 := Nat.div2_val b
    have hb2 : Nat.div2 b < 2 ^ k := by rw [hdiv2]; omega
    have hbodd : (Nat.bodd b).toNat = b % 2 := by
      rcases Nat.bodd_add_div2 b with h
      cases hb' : Nat.bodd b <;> simp [hb'] at h ⊢ <;> omega
    calc (a <<< (k + 1)) ||| b
        = Nat.bit false (a <<< k) ||| Nat.bit (Nat.bodd b) (Nat.div2 b) := by
          rw [Nat.bit_decomp]
          congr 1
          simp [Nat.bit, Nat.shiftLeft_eq, Nat.pow_succ]
          ring
      _ = Nat.bit (false || Nat.bodd b) ((a <<< k) ||| Nat.div2 b) :=
          Nat.lor_bit false (a <<< k) (Nat.bodd b) (Nat.div2 b)
      _ = Nat.bit (Nat.bodd b) (a * 2 ^ k + Nat.div2 b) := by
          rw [Bool.false_or, ih a (Nat.div2 b) hb2]
      _ = a * 2 ^ (k + 1) + b := by
          rw [Nat.bit_val, hbodd, hdiv2]
          have hrw : a * 2 ^ (k + 1) = a * 2 ^ k * 2 := by ring
          rw [hrw]
          omega

theorem extract_bridge (n j k m : Nat) (hm : m = (2 ^ j - 1) <<< k)
    (ht : trailingZeros m = k) : maskShift m n = n / 2 ^ k % 2 ^ j := by
  rw [maskShift, ht, hm, extract_helper]

theorem maskShift_qr (n : Nat) : maskShift 32768 n = n / 32768 % 2 := by
  rw [extract_bridge n 1 15 32768 (by decide) (by decide)]
  norm_num

theorem maskShift_op (n : Nat) : maskShift 30720 n = n / 2048 % 16 := by
  rw [extract_bridge n 4 11 30720 (by decide) (by decide)]
  norm_num

theorem maskShift_aa (n : Nat) : maskShift 1024 n = n / 1024 % 2 := by
  rw [extract_bridge n 1 10 1024 (by decide) (by decide)]
  norm_num

theorem maskShift_tc (n : Nat) : maskShift 512 n = n / 512 % 2 := by
  rw [extract_bridge n 1 9 512 (by decide) (by decide)]
  norm_num

theorem maskShift_rd (n : Nat) : maskShift 256 n = n / 256 % 2 := by
  rw [extract_bridge n 1 8 256 (by decide) (by decide)]
  norm_num

theorem maskShift_ra (n : Nat) : maskShift 128 n = n / 128 % 2 := by
  rw [extract_bridge n 1 7 128 (by decide) (by decide)]
  norm_num

theorem maskShift_z (n : Nat) : maskShift 64 n = n / 64 % 2 := by
  rw [extract_bridge n 1 6 64 (by decide) (by decide)]
  norm_num

theorem maskShift_ad (n : Nat) : maskShift 32 n = n / 32 % 2 := by
  rw [extract_bridge n 1 5 32 (by decide) (by decide)]
  norm_num

theorem maskShift_cd (n : Nat) : maskShift 16 n = n / 16 % 2 := by
  rw [extract_bridge n 1 4 16 (by decide) (by decide)]
  norm_num

theorem maskShift_rc (n : Nat) : maskShift 15 n = n % 16 := by
  rw [extract_bridge n 4 0 15 (by decide) (by decide)]
  norm_num

theorem lor_step (A v k k' K K' : Nat) (hK : 2 ^ k = K) (hK' : 2 ^ k' = K')
    (hv : v * K' < K) : (A * K) ||| (v <<< k') = A * K + v * K' := by
  subst hK
  subst hK'
  rw [← Nat.shiftLeft_eq A k,
    lor_shiftLeft_add A k (v <<< k') (by rw [Nat.shiftLeft_eq]; exact hv),
    Nat.shiftLeft_eq, Nat.shiftLeft_eq]

theorem Flags.toU16_eq_sum (f : Flags) :
    f.toU16 = f.qr.val * 32768 + f.opcode.val * 2048 + f.aa.val * 1024 +
      f.tc.val * 512 + f.rd.val * 256 + f.ra.val * 128 + f.z.val * 64 +
      f.ad.val * 32 + f.cd.val * 16 + f.rcode.val := by
  have hqr : f.qr.val ≤ 1 := by cases f.qr <;> decide
  have hop : f.opcode.val ≤ 6 := by cases f.opcode <;> decide
  have haa : f.aa.val ≤ 1 := by cases f.aa <;> decide
  have htc : f.tc.val ≤ 1 := by cases f.tc <;> decide
  have hrd : f.rd.val ≤ 1 := by cases f.rd <;> decide
  have hra : f.ra.val ≤ 1 := by cases f.ra <;> decide
  have hz : f.z.val ≤ 1 := by cases f.z <;> decide
  have had : f.ad.val ≤ 1 := by cases f.ad <;> decide
  have hcd : f.cd.val ≤ 1 := by cases f.cd <;> decide
  have hrc : f.rcode.val ≤ 5 := by cases f.rcode <;> decide
  rw [Flags.toU16,
    show f.qr.toU16 = f.qr.val * 32768 from by
      rw [QueryResponse.toU16, unshift, show trailingZeros 32768 = 15 from by decide,
        Nat.shiftLeft_eq],
    show f.opcode.toU16 = f.opcode.val <<< 11 from by
      rw [OpCode.toU16, unshift, show trailingZeros 30720 = 11 from by decide],
    show f.aa.toU16 = f.aa.val <<< 10 from by
      rw [AuthoritativeAnswer.toU16, unshift, show trailingZeros 1024 = 10 from by decide],
    show f.tc.toU16 = f.tc.val <<< 9 from by
      rw [TrunCation.toU16, unshift, show trailingZeros 512 = 9 from by decide],
    show f.rd.toU16 = f.rd.val <<< 8 from by
      rw [RecursionDesired.toU16, unshift, show trailingZeros 256 = 8 from by decide],
    show f.ra.toU16 = f.ra.val <<< 7 from by
      rw [RecursionAvailable.toU16, unshift, show trailingZeros 128 = 7 from by decide],
    show f.z.toU16 = f.z.val <<< 6 from by
      rw [Zero.toU16, unshift, show trailingZeros 64 = 6 from by decide],
    show f.ad.toU16 = f.ad.val <<< 5 from by
      rw [AuthenticData.toU16, unshift, show trailingZeros 32 = 5 from by decide],
    show f.cd.toU16 = f.cd.val <<< 4 from by
      rw [CheckingDisabled.toU16, unshift, show trailingZeros 16 = 4 from by decide],
    show f.rcode.toU16 = f.rcode.val <<< 0 from by
      rw [ResponseCode.toU16, unshift, show trailingZeros 15 = 0 from by decide]]
  rw [lor_step f.qr.val f.opcode.val 15 11 32768 2048 (by norm_num) (by norm_num) (by omega)]
  rw [show f.qr.val * 32768 + f.opcode.val * 2048 = (f.qr.val * 16 + f.opcode.val) * 2048
      from by ring]
  rw [lor_step _ f.aa.val 11 10 2048 1024 (by norm_num) (by norm_num) (by omega)]
  rw [show (f.qr.val * 16 + f.opcode.val) * 2048 + f.aa.val * 1024 =
      ((f.qr.val * 16 + f.opcode.val) * 2 + f.aa.val) * 1024 from by ring]
  rw [lor_step _ f.tc.val 10 9 1024 512 (by norm_num) (by norm_num) (by omega)]
  rw [show ((f.qr.val * 16 + f.opcode.val) * 2 + f.aa.val) * 1024 + f.tc.val * 512 =
      (((f.qr.val * 16 + f.opcode.val) * 2 + f.aa.val) * 2 + f.tc.val) * 512 from by ring]
  rw [lor_step _ f.rd.val 9 8 512 256 (by norm_num) (by norm_num) (by omega)]
  rw [show (((f.qr.val * 16 + f.opcode.val) * 2 + f.aa.val) * 2 + f.tc.val) * 512 +
      f.rd.val * 256 =
      ((((f.qr.val * 16 + f.opcode.val) * 2 + f.aa.val) * 2 + f.tc.val) * 2 + f.rd.val) * 256
      from by ring]
  rw [lor_step _ f.ra.val 8 7 256 128 (by norm_num) (by norm_num) (by omega)]
  rw [show ((((f.qr.val * 16 + f.opcode.val) * 2 + f.aa.val) * 2 + f.tc.val) * 2 +
      f.rd.val) * 256 + f.ra.val * 128 =
      (((((f.qr.val * 16 + f.opcode.val) * 2 + f.aa.val) * 2 + f.tc.val) * 2 + f.rd.val) * 2 +
      f.ra.val) * 128 from by ring]
  rw [lor_step _ f.z.val 7 6 128 64 (by norm_num) (by norm_num) (by omega)]
  rw [show (((((f.qr.val * 16 + f.opcode.val) * 2 + f.aa.val) * 2 + f.tc.val) * 2 +
      f.rd.val) * 2 + f.ra.val) * 128 + f.z.val * 64 =
      ((((((f.qr.val * 16 + f.opcode.val) * 2 + f.aa.val) * 2 + f.tc.val) * 2 + f.rd.val) * 2 +
      f.ra.val) * 2 + f.z.val) * 64 from by ring]
  rw [lor_step _ f.ad.val 6 5 64 32 (by norm_num) (by norm_num) (by omega)]
  rw [show ((((((f.qr.val * 16 + f.opcode.val) * 2 + f.aa.val) * 2 + f.tc.val) * 2 +
      f.rd.val) * 2 + f.ra.val) * 2 + f.z.val) * 64 + f.ad.val * 32 =
      (((((((f.qr.val * 16 + f.opcode.val) * 2 + f.aa.val) * 2 + f.tc.val) * 2 + f.rd.val) * 2 +
      f.ra.val) * 2 + f.z.val) * 2 + f.ad.val) * 32 from by ring]
  rw [lor_step _ f.cd.val 5 4 32 16 (by norm_num) (by norm_num) (by omega)]
  rw [show (((((((f.qr.val * 16 + f.opcode.val) * 2 + f.aa.val) * 2 + f.tc.val) * 2 +
      f.rd.val) * 2 + f.ra.val) * 2 + f.z.val) * 2 + f.ad.val) * 32 + f.cd.val * 16 =
      ((((((((f.qr.val * 16 + f.opcode.val) * 2 + f.aa.val) * 2 + f.tc.val) * 2 + f.rd.val) * 2 +
      f.ra.val) * 2 + f.z.val) * 2 + f.ad.val) * 2 + f.cd.val) * 16 from by ring]
  rw [lor_step _ f.rcode.val 4 0 16 1 (by norm_num) (by norm_num) (by omega)]
  ring

theorem qr_from_of (w : Nat) (x : QueryResponse) (h : maskShift 32768 w = x.val) :
    QueryResponse.fromU16 w = x := by
  simp only [QueryResponse.fromU16, h]
  cases x <;> rfl

theorem aa_from_of (w : Nat) (x : AuthoritativeAnswer) (h : maskShift 1024 w = x.val) :
    AuthoritativeAnswer.fromU16 w = x := by
  simp only [AuthoritativeAnswer.fromU16, h]
  cases x <;> rfl

theorem tc_from_of (w : Nat) (x : TrunCation) (h : maskShift 512 w = x.val) :
    TrunCation.fromU16 w = x := by
  simp only [TrunCation.fromU16, h]
  cases x <;> rfl

theorem rd_from_of (w : Nat) (x : RecursionDesired) (h : maskShift 256 w = x.val) :
    RecursionDesired.fromU16 w = x := by
  simp only [RecursionDesired.fromU16, h]
  cases x <;> rfl

theorem ra_from_of (w : Nat) (x : RecursionAvailable) (h : maskShift 128 w = x.val) :
    RecursionAvailable.fromU16 w = x := by
  simp only [RecursionAvailable.fromU16, h]
  cases x <;> rfl

theorem z_from_of (w : Nat) (x : Zero) (h : maskShift 64 w = x.val) :
    Zero.fromU16 w = x := by
  simp only [Zero.fromU16, h]
  cases x <;> rfl

theorem ad_from_of (w : Nat) (x : AuthenticData) (h : maskShift 32 w = x.val) :
    AuthenticData.fromU16 w = x := by
  simp only [AuthenticData.fromU16, h]
  cases x <;> rfl

theorem cd_from_of (w : Nat) (x : CheckingDisabled) (h : maskShift 16 w = x.val) :
    CheckingDisabled.fromU16 w = x := by
  simp only [CheckingDisabled.fromU16, h]
  cases x <;> rfl

theorem opcode_tryFrom_of (w : Nat) (x : OpCode) (h : maskShift 30720 w = x.val) :
    OpCode.tryFromU16 w = .ok x := by
  simp only [OpCode.tryFromU16, h]
  cases x <;> rfl

theorem rcode_tryFrom_of (w : Nat) (x : ResponseCode) (h : maskShift 15 w = x.val) :
    ResponseCode.tryFromU16 w = .ok x := by
  simp only [ResponseCode.tryFromU16, h]
  cases x <;> rfl

theorem Flags.tryFrom_toU16 (f : Flags) : Flags.tryFromU16 f.toU16 = .ok f := by
  have hsum := Flags.toU16_eq_sum f
  have hqrb : f.qr.val ≤ 1 := by cases f.qr <;> decide
  have hopb : f.opcode.val ≤ 6 := by cases f.opcode <;> decide
  have haab : f.aa.val ≤ 1 := by cases f.aa <;> decide
  have htcb : f.tc.val ≤ 1 := by cases f.tc <;> decide
  have hrdb : f.rd.val ≤ 1 := by cases f.rd <;> decide
  have hrab : f.ra.val ≤ 1 := by cases f.ra <;> decide
  have hzb : f.z.val ≤ 1 := by cases f.z <;> decide
  have hadb : f.ad.val ≤ 1 := by cases f.ad <;> decide
  have hcdb : f.cd.val ≤ 1 := by cases f.cd <;> decide
  have hrcb : f.rcode.val ≤ 5 := by cases f.rcode <;> decide
  have hqr : maskShift 32768 f.toU16 = f.qr.val := by rw [maskShift_qr, hsum]; omega
  have hop : maskShift 30720 f.toU16 = f.opcode.val := by rw [maskShift_op, hsum]; omega
  have haa : maskShift 1024 f.toU16 = f.aa.val := by rw [maskShift_aa, hsum]; omega
  have htc : maskShift 512 f.toU16 = f.tc.val := by rw [maskShift_tc, hsum]; omega
  have hrd : maskShift 256 f.toU16 = f.rd.val := by rw [maskShift_rd, hsum]; omega
  have hra : maskShift 128 f.toU16 = f.ra.val := by rw [maskShift_ra, hsum]; omega
  have hz : maskShift 64 f.toU16 = f.z.val := by rw [maskShift_z, hsum]; omega
  have had : maskShift 32 f.toU16 = f.ad.val := by rw [maskShift_ad, hsum]; omega
  have hcd : maskShift 16 f.toU16 = f.cd.val := by rw [maskShift_cd, hsum]; omega
  have hrc : maskShift 15 f.toU16 = f.rcode.val := by rw [maskShift_rc, hsum]; omega
  rw [Flags.tryFromU16, qr_from_of _ _ hqr, opcode_tryFrom_of _ _ hop,
    aa_from_of _ _ haa, tc_from_of _ _ htc, rd_from_of _ _ hrd, ra_from_of _ _ hra,
    z_from_of _ _ hz, ad_from_of _ _ had, cd_from_of _ _ hcd, rcode_tryFrom_of _ _ hrc]
  rfl

theorem qrFrom_val (n : Nat) : (QueryResponse.fromU16 n).val = n / 32768 % 2 := by
  have h := maskShift_qr n
  have h2 : n / 32768 % 2 = 0 ∨ n / 32768 % 2 = 1 := by omega
  rcases h2 with h2 | h2
  · rw [qr_from_of n .query (by rw [h]; exact h2), h2]; rfl
  · rw [qr_from_of n .response (by rw [h]; exact h2), h2]; rfl

theorem aaFrom_val (n : Nat) : (AuthoritativeAnswer.fromU16 n).val = n / 1024 % 2 := by
  have h := maskShift_aa n
  have h2 : n / 1024 % 2 = 0 ∨ n / 1024 % 2 = 1 := by omega
  rcases h2 with h2 | h2
  · rw [aa_from_of n .nonAuthoritative (by rw [h]; exact h2), h2]; rfl
  · rw [aa_from_of n .authoritative (by rw [h]; exact h2), h2]; rfl

theorem tcFrom_val (n : Nat) : (TrunCation.fromU16 n).val = n / 512 % 2 := by
  have h := maskShift_tc n
  have h2 : n / 512 % 2 = 0 ∨ n / 512 % 2 = 1 := by omega
  rcases h2 with h2 | h2
  · rw [tc_from_of n .notTruncated (by rw [h]; exact h2), h2]; rfl
  · rw [tc_from_of n .truncated (by rw [h]; exact h2), h2]; rfl

theorem rdFrom_val (n : Nat) : (RecursionDesired.fromU16 n).val = n / 256 % 2 := by
  have h := maskShift_rd n
  have h2 : n / 256 % 2 = 0 ∨ n / 256 % 2 = 1 := by omega
  rcases h2 with h2 | h2
  · rw [rd_from_of n .notDesired (by rw [h]; exact h2), h2]; rfl
  · rw [rd_from_of n .desired (by rw [h]; exact h2), h2]; rfl

theorem raFrom_val (n : Nat) : (RecursionAvailable.fromU16 n).val = n / 128 % 2 := by
  have h := maskShift_ra n
  have h2 : n / 128 % 2 = 0 ∨ n / 128 % 2 = 1 := by omega
  rcases h2 with h2 | h2
  · rw [ra_from_of n .notAvailable (by rw [h]; exact h2), h2]; rfl
  · rw [ra_from_of n .available (by rw [h]; exact h2), h2]; rfl

theorem zFrom_val (n : Nat) : (Zero.fromU16 n).val = n / 64 % 2 := by
  have h := maskShift_z n
  have h2 : n / 64 % 2 = 0 ∨ n / 64 % 2 = 1 := by omega
  rcases h2 with h2 | h2
  · rw [z_from_of n .zero (by rw [h]; exact h2), h2]; rfl
  · rw [z_from_of n .reserved (by rw [h]; exact h2), h2]; rfl

theorem adFrom_val (n : Nat) : (AuthenticData.fromU16 n).val = n / 32 % 2 := by
  have h := maskShift_ad n
  have h2 : n / 32 % 2 = 0 ∨ n / 32 % 2 = 1 := by omega
  rcases h2 with h2 | h2
  · rw [ad_from_of n .notAuthentic (by rw [h]; exact h2), h2]; rfl
  · rw [ad_from_of n .authentic (by rw [h]; exact h2), h2]; rfl

theorem cdFrom_val (n : Nat) : (CheckingDisabled.fromU16 n).val = n / 16 % 2 := by
  have h := maskShift_cd n
  have h2 : n / 16 % 2 = 0 ∨ n / 16 % 2 = 1 := by omega
  rcases h2 with h2 | h2
  · rw [cd_from_of n .enabled (by rw [h]; exact h2), h2]; rfl
  · rw [cd_from_of n .disabled (by rw [h]; exact h2), h2]; rfl

theorem opcode_tryFrom_ok (n : Nat)
    (h : n / 2048 % 16 = 0 ∨ n / 2048 % 16 = 1 ∨ n / 2048 % 16 = 2 ∨
      n / 2048 % 16 = 4 ∨ n / 2048 % 16 = 5 ∨ n / 2048 % 16 = 6) :
    ∃ op : OpCode, OpCode.tryFromU16 n = .ok op ∧ OpCode.val op = n / 2048 % 16 := by
  rcases h with h | h | h | h | h | h
  · exact ⟨.query, opcode_tryFrom_of n .query (by rw [maskShift_op]; exact h), by rw [h]; rfl⟩
  · exact ⟨.iquery, opcode_tryFrom_of n .iquery (by rw [maskShift_op]; exact h), by rw [h]; rfl⟩
  · exact ⟨.status, opcode_tryFrom_of n .status (by rw [maskShift_op]; exact h), by rw [h]; rfl⟩
  · exact ⟨.notify, opcode_tryFrom_of n .notify (by rw [maskShift_op]; exact h), by rw [h]; rfl⟩
  · exact ⟨.update, opcode_tryFrom_of n .update (by rw [maskShift_op]; exact h), by rw [h]; rfl⟩
  · exact ⟨.dso, opcode_tryFrom_of n .dso (by rw [maskShift_op]; exact h), by rw [h]; rfl⟩

theorem rcode_tryFrom_ok (n : Nat) (h : n % 16 ≤ 5) :
    ∃ rc : ResponseCode, ResponseCode.tryFromU16 n = .ok rc ∧
      ResponseCode.val rc = n % 16 := by
  have h6 : n % 16 = 0 ∨ n % 16 = 1 ∨ n % 16 = 2 ∨ n % 16 = 3 ∨ n % 16 = 4 ∨ n % 16 = 5 := by
    omega
  rcases h6 with h6 | h6 | h6 | h6 | h6 | h6
  · exact ⟨.noError, rcode_tryFrom_of n .noError (by rw [maskShift_rc]; exact h6), by rw [h6]; rfl⟩
  · exact ⟨.formErr, rcode_tryFrom_of n .formErr (by rw [maskShift_rc]; exact h6), by rw [h6]; rfl⟩
  · exact ⟨.servFail, rcode_tryFrom_of n .servFail (by rw [maskShift_rc]; exact h6), by rw [h6]; rfl⟩
  · exact ⟨.nxDomain, rcode_tryFrom_of n .nxDomain (by rw [maskShift_rc]; exact h6), by rw [h6]; rfl⟩
  · exact ⟨.notImp, rcode_tryFrom_of n .notImp (by rw [maskShift_rc]; exact h6), by rw [h6]; rfl⟩
  · exact ⟨.refused, rcode_tryFrom_of n .refused (by rw [maskShift_rc]; exact h6), by rw [h6]; rfl⟩

theorem opcode_tryFrom_err (n : Nat)
    (h : ¬(n / 2048 % 16 = 0 ∨ n / 2048 % 16 = 1 ∨ n / 2048 % 16 = 2 ∨
      n / 2048 % 16 = 4 ∨ n / 2048 % 16 = 5 ∨ n / 2048 % 16 = 6)) :
    OpCode.tryFromU16 n = .error (.headerFlag "OpCode" (maskShift 30720 n)) := by
  simp only [OpCode.tryFromU16, maskShift_op]
  have hlt : n / 2048 % 16 < 16 := by omega
  set v := n / 2048 % 16 with hv
  interval_cases v <;> first | rfl | (exfalso; omega)

theorem rcode_tryFrom_err (n : Nat) (h : ¬ n % 16 ≤ 5) :
    ResponseCode.tryFromU16 n = .error (.headerFlag "ResponseCode" (maskShift 15 n)) := by
  simp only [ResponseCode.tryFromU16, maskShift_rc]
  have hlt : n % 16 < 16 := by omega
  set v := n % 16 with hv
  interval_cases v <;> rfl

theorem flags_tryFrom_op_err (n : Nat) (e : PErr)
    (h : OpCode.tryFromU16 n = .error e) : Flags.tryFromU16 n = .error e := by
  rw [Flags.tryFromU16, h]
  rfl

theorem flags_tryFrom_rc_err (n : Nat) (op : OpCode) (e : PErr)
    (hop : OpCode.tryFromU16 n = .ok op)
    (h : ResponseCode.tryFromU16 n = .error e) : Flags.tryFromU16 n = .error e := by
  rw [Flags.tryFromU16, hop, h]
  rfl

/-- **C9**: for every 16-bit flag word whose opcode field (bits 11-14) lies
in {0,1,2,4,5,6} and whose rcode field (bits 0-3) lies in {0,...,5},
`Flags::try_from` succeeds and `u16::from` of the result is exactly the
original word (bit-exact round trip); if the opcode field is reserved the
conversion fails with `HeaderFlag("OpCode", value)`, and with an accepted
opcode but reserved rcode it fails with `HeaderFlag("ResponseCode", value)`. -/
theorem claim_C9 (word : Nat) (hword : word < 65536) :
    ((maskShift 30720 word = 0 ∨ maskShift 30720 word = 1 ∨ maskShift 30720 word = 2 ∨
        maskShift 30720 word = 4 ∨ maskShift 30720 word = 5 ∨ maskShift 30720 word = 6) →
      ((maskShift 15 word ≤ 5 →
          ∃ flags, Flags.tryFromU16 word = .ok flags ∧ Flags.toU16 flags = word) ∧
        (¬ maskShift 15 word ≤ 5 →
          Flags.tryFromU16 word = .error (.headerFlag "ResponseCode" (maskShift 15 word))))) ∧
    (¬(maskShift 30720 word = 0 ∨ maskShift 30720 word = 1 ∨ maskShift 30720 word = 2 ∨
        maskShift 30720 word = 4 ∨ maskShift 30720 word = 5 ∨ maskShift 30720 word = 6) →
      Flags.tryFromU16 word = .error (.headerFlag "OpCode" (maskShift 30720 word))) := by
  constructor
  · intro hop
    simp only [maskShift_op] at hop
    constructor
    · intro hrc
      simp only [maskShift_rc] at hrc
      obtain ⟨op, hopOk, hopVal⟩ := opcode_tryFrom_ok word hop
      obtain ⟨rc, hrcOk, hrcVal⟩ := rcode_tryFrom_ok word hrc
      refine ⟨⟨QueryResponse.fromU16 word, op, AuthoritativeAnswer.fromU16 word,
        TrunCation.fromU16 word, RecursionDesired.fromU16 word,
        RecursionAvailable.fromU16 word, Zero.fromU16 word, AuthenticData.fromU16 word,
        CheckingDisabled.fromU16 word, rc⟩, ?_, ?_⟩
      · rw [Flags.tryFromU16, hopOk, hrcOk]
        rfl
      · rw [Flags.toU16_eq_sum]
        simp only [qrFrom_val, aaFrom_val, tcFrom_val, rdFrom_val, raFrom_val, zFrom_val,
          adFrom_val, cdFrom_val]
        rw [hopVal, hrcVal]
        omega
    · intro hrc
      simp only [maskShift_rc] at hrc
      obtain ⟨op, hopOk, _⟩ := opcode_tryFrom_ok word hop
      have herr := rcode_tryFrom_err word hrc
      exact flags_tryFrom_rc_err word op _ hopOk herr
  · intro hop
    simp only [maskShift_op] at hop
    exact flags_tryFrom_op_err word _ (opcode_tryFrom_err word hop)

/-- Witness for C9 at the concrete word `0x8180` (standard response flags). -/
theorem claim_C9_witness :
    ∃ flags, Flags.tryFromU16 33152 = .ok flags ∧ Flags.toU16 flags = 33152 :=
  ((claim_C9 33152 (by norm_num)).1 (by decide)).1 (by decide)

/-! ### The subdomain relation -/

theorem foldl_and_acc (l : List (List Nat × List Nat)) (acc : Bool) :
    l.foldl (fun acc xy => acc && (xy.1 = xy.2 : Bool)) acc =
      (acc && l.all fun xy => xy.1 = xy.2) := by
  induction l generalizing acc with
  | nil => simp
  | cons x xs ih =>
    simp only [List.foldl_cons, List.all_cons, ih, Bool.and_assoc]

theorem zip_all_eq_iff (xs : List (List Nat)) :
    ∀ ys : List (List Nat), xs.length ≤ ys.length →
      (((xs.zip ys).all fun p => p.1 = p.2) = true ↔ ∃ t, xs ++ t = ys) := by
  induction xs with
  | nil =>
    intro ys _
    simp only [List.zip_nil_left, List.all_nil, List.nil_append, true_iff]
    exact ⟨ys, rfl⟩
  | cons x xs ih =>
    intro ys hlen
    cases ys with
    | nil => simp at hlen
    | cons y ys =>
      simp only [List.zip_cons_cons, List.all_cons, List.cons_append,
        Bool.and_eq_true, decide_eq_true_eq]
      constructor
      · rintro ⟨hxy, hall⟩
        obtain ⟨t, ht⟩ := (ih ys (by simpa using hlen)).mp hall
        exact ⟨t, by rw [hxy, ht]⟩
      · rintro ⟨t, ht⟩
        obtain ⟨hxy, hrest⟩ := List.cons.inj ht
        exact ⟨hxy, (ih ys (by simpa using hlen)).mpr ⟨t, hrest⟩⟩

/-- `is_subdomain` succeeds exactly when the receiver labels are a prefix of
the argument labels (read hierarchically). -/
theorem isSubdomain_iff (a b : Name) :
    a.isSubdomain b = true ↔ ∃ t, a.labels ++ t = b.labels := by
  rw [Name.isSubdomain]
  by_cases hlen : a.labels.length > b.labels.length
  · simp only [hlen, if_true]
    constructor
    · intro h
      exact absurd h (by simp)
    · rintro ⟨t, ht⟩
      have := congrArg List.length ht
      simp at this
      omega
  · simp only [hlen, if_false]
    rw [foldl_and_acc, Bool.true_and]
    exact zip_all_eq_iff a.labels b.labels (by omega)

/-- **C8**: `is_subdomain` is the prefix order on hierarchical label
sequences: the root name is below every name, the relation is reflexive and
transitive, and mutual subdomain-ship forces equal label sequences. -/
theorem claim_C8 :
    (∀ n : Name, Name.new.isSubdomain n = true) ∧
    (∀ n : Name, n.isSubdomain n = true) ∧
    (∀ a b c : Name, a.isSubdomain b = true → b.isSubdomain c = true →
      a.isSubdomain c = true) ∧
    (∀ a b : Name, a.isSubdomain b = true → b.isSubdomain a = true →
      a.labels = b.labels) := by
  refine ⟨?_, ?_, ?_, ?_⟩
  · intro n
    exact (isSubdomain_iff Name.new n).mpr ⟨n.labels, rfl⟩
  · intro n
    exact (isSubdomain_iff n n).mpr ⟨[], by simp⟩
  · intro a b c hab hbc
    obtain ⟨t1, ht1⟩ := (isSubdomain_iff a b).mp hab
    obtain ⟨t2, ht2⟩ := (isSubdomain_iff b c).mp hbc
    exact (isSubdomain_iff a c).mpr ⟨t1 ++ t2, by rw [← List.append_assoc, ht1, ht2]⟩
  · intro a b hab hba
    obtain ⟨t1, ht1⟩ := (isSubdomain_iff a b).mp hab
    obtain ⟨t2, ht2⟩ := (isSubdomain_iff b a).mp hba
    have hl1 := congrArg List.length ht1
    have hl2 := congrArg List.length ht2
    simp at hl1 hl2
    have ht1nil : t1 = [] := by
      have : t1.length = 0 := by omega
      simpa using this
    rw [ht1nil] at ht1
    simpa using ht1

/-- Witness for C8: transitivity applied at three concrete names
(`com`, `example.com`, `www.example.com`). -/
theorem claim_C8_witness :
    (Name.mk [[99, 111, 109]] 4).isSubdomain
      (Name.mk [[99, 111, 109], [101, 120], [119, 119, 119]] 12) = true :=
  claim_C8.2.2.1 (Name.mk [[99, 111, 109]] 4)
    (Name.mk [[99, 111, 109], [101, 120]] 7)
    (Name.mk [[99, 111, 109], [101, 120], [119, 119, 119]] 12)
    (by decide) (by decide)

/-! ### The name-parsing loop: consumed bytes, jump limits, jump direction -/

theorem loop_size_frozen (buff : List Nat) :
    ∀ fuel pos size jumps labels len trace r,
      1 ≤ jumps →
      nameParseLoop buff fuel pos size jumps labels len trace = .ok r →
      r.size = size := by
  intro fuel
  induction fuel with
  | zero =>
    intro pos size jumps labels len trace r _ h
    simp [nameParseLoop] at h
  | succ fuel ih =>
    intro pos size jumps labels len trace r hj h
    rw [nameParseLoop] at h
    by_cases hmax : jumps > MAX_JUMPS
    · simp [hmax] at h
    rw [if_neg hmax] at h
    cases hm : readLabelMetadata buff pos with
    | error e => rw [hm] at h; simp at h
    | ok m =>
      rw [hm] at h
      cases m with
      | pointer ptr =>
        simp only at h
        by_cases hge : ptr ≥ pos
        · rw [if_pos hge] at h; simp at h
        rw [if_neg hge] at h
        have hj0 : ¬ jumps = 0 := by omega
        rw [if_neg hj0] at h
        exact ih ptr size (jumps + 1) labels len ((pos, ptr) :: trace) r (by omega) h
      | size s =>
        simp only at h
        by_cases h1 : s > MAX_LABEL_SIZE
        · rw [if_pos h1] at h; simp at h
        rw [if_neg h1] at h
        by_cases h2 : buff.length ≤ pos + s
        · rw [if_pos h2] at h; simp at h
        rw [if_neg h2] at h
        by_cases h3 : len + s > MAX_NAME_SIZE
        · rw [if_pos h3] at h; simp at h
        rw [if_neg h3] at h
        cases hp : pushBytes labels len ((buff.drop (pos + 1)).take s) with
        | error e => rw [hp] at h; simp at h
        | ok pr =>
          rw [hp] at h
          simp only at h
          have hj0 : ¬ jumps = 0 := by omega
          rw [if_neg hj0] at h
          exact ih (pos + s + 1) size jumps pr.1 pr.2 trace r hj h
      | done =>
        simp only at h
        have hj0 : ¬ jumps = 0 := by omega
        rw [if_neg hj0] at h
        cases h
        rfl

/-- Spec-side companion for C4, following the spec's words: the bytes the
caller must advance are the literal label bytes walked before the first
jump (each label contributing its size plus one), plus 2 for the first
pointer if a jump occurs, plus 1 for the terminator if the name ends without
jumping. -/
def walkConsumed (buff : List Nat) : Nat → Nat → Option Nat
  | 0, _ => none
  | fuel + 1, pos =>
    match readLabelMetadata buff pos with
    | .error _ => none
    | .ok .done => some 1
    | .ok (.pointer _) => some 2
    | .ok (.size s) => (walkConsumed buff fuel (pos + s + 1)).map (· + (s + 1))

theorem loop_size_walk (buff : List Nat) :
    ∀ fuel pos size labels len trace r,
      nameParseLoop buff fuel pos size 0 labels len trace = .ok r →
      ∃ w, walkConsumed buff fuel pos = some w ∧ r.size = size + w := by
  intro fuel
  induction fuel with
  | zero =>
    intro pos size labels len trace r h
    simp [nameParseLoop] at h
  | succ fuel ih =>
    intro pos size labels len trace r h
    rw [nameParseLoop] at h
    rw [if_neg (by simp [MAX_JUMPS])] at h
    cases hm : readLabelMetadata buff pos with
    | error e => rw [hm] at h; simp at h
    | ok m =>
      rw [hm] at h
      cases m with
      | pointer ptr =>
        simp only at h
        by_cases hge : ptr ≥ pos
        · rw [if_pos hge] at h; simp at h
        rw [if_neg hge] at h
        rw [if_true] at h
        have := loop_size_frozen buff fuel ptr (size + 2) 1 labels len
          ((pos, ptr) :: trace) r (by omega) h
        refine ⟨2, ?_, by omega⟩
        rw [walkConsumed, hm]
      | size s =>
        simp only at h
        by_cases h1 : s > MAX_LABEL_SIZE
        · rw [if_pos h1] at h; simp at h
        rw [if_neg h1] at h
        by_cases h2 : buff.length ≤ pos + s
        · rw [if_pos h2] at h; simp at h
        rw [if_neg h2] at h
        by_cases h3 : len + s > MAX_NAME_SIZE
        · rw [if_pos h3] at h; simp at h
        rw [if_neg h3] at h
        cases hp : pushBytes labels len ((buff.drop (pos + 1)).take s) with
        | error e => rw [hp] at h; simp at h
        | ok pr =>
          obtain ⟨labels', len'⟩ := pr
          rw [hp] at h
          simp only at h
          rw [if_true] at h
          obtain ⟨w, hw, hsz⟩ := ih (pos + s + 1) (size + s + 1) labels' len' trace r h
          refine ⟨w + (s + 1), ?_, by omega⟩
          rw [walkConsumed, hm]
          simp [hw]
      | done =>
        simp only at h
        rw [if_true] at h
        cases h
        exact ⟨1, by rw [walkConsumed, hm], rfl⟩

theorem loop_jumps_le (buff : List Nat) :
    ∀ fuel pos size jumps labels len trace r,
      nameParseLoop buff fuel pos size jumps labels len trace = .ok r →
      jumps ≤ MAX_JUMPS ∧ r.jumps ≤ MAX_JUMPS := by
  intro fuel
  induction fuel with
  | zero =>
    intro pos size jumps labels len trace r h
    simp [nameParseLoop] at h
  | succ fuel ih =>
    intro pos size jumps labels len trace r h
    rw [nameParseLoop] at h
    by_cases hmax : jumps > MAX_JUMPS
    · simp [hmax] at h
    rw [if_neg hmax] at h
    refine ⟨by omega, ?_⟩
    cases hm : readLabelMetadata buff pos with
    | error e => rw [hm] at h; simp at h
    | ok m =>
      rw [hm] at h
      cases m with
      | pointer ptr =>
        simp only at h
        by_cases hge : ptr ≥ pos
        · rw [if_pos hge] at h; simp at h
        rw [if_neg hge] at h
        by_cases hj0 : jumps = 0
        · rw [if_pos hj0] at h
          exact (ih ptr (size + 2) (jumps + 1) labels len ((pos, ptr) :: trace) r h).2
        · rw [if_neg hj0] at h
          exact (ih ptr size (jumps + 1) labels len ((pos, ptr) :: trace) r h).2
      | size s =>
        simp only at h
        by_cases h1 : s > MAX_LABEL_SIZE
        · rw [if_pos h1] at h; simp at h
        rw [if_neg h1] at h
        by_cases h2 : buff.length ≤ pos + s
        · rw [if_pos h2] at h; simp at h
        rw [if_neg h2] at h
        by_cases h3 : len + s > MAX_NAME_SIZE
        · rw [if_pos h3] at h; simp at h
        rw [if_neg h3] at h
        cases hp : pushBytes labels len ((buff.drop (pos + 1)).take s) with
        | error e => rw [hp] at h; simp at h
        | ok pr =>
          rw [hp] at h
          simp only at h
          by_cases hj0 : jumps = 0
          · rw [if_pos hj0] at h
            exact (ih (pos + s + 1) (size + s + 1) jumps pr.1 pr.2 trace r h).2
          · rw [if_neg hj0] at h
            exact (ih (pos + s + 1) size jumps pr.1 pr.2 trace r h).2
      | done =>
        simp only at h
        by_cases hj0 : jumps = 0
        · rw [if_pos hj0] at h
          cases h
          exact (by omega : jumps ≤ MAX_JUMPS)
        · rw [if_neg hj0] at h
          cases h
          exact (by omega : jumps ≤ MAX_JUMPS)

theorem loop_excessive (buff : List Nat) (fuel pos size jumps : Nat)
    (labels : List (List Nat)) (len : Nat) (trace : List (Nat × Nat))
    (hf : 0 < fuel) (hj : jumps > MAX_JUMPS) :
    nameParseLoop buff fuel pos size jumps labels len trace =
      .error (.excesiveJumps jumps) := by
  cases fuel with
  | zero => omega
  | succ fuel => rw [nameParseLoop, if_pos hj]

theorem loop_invalid (buff : List Nat) (fuel pos size jumps : Nat)
    (labels : List (List Nat)) (len : Nat) (trace : List (Nat × Nat)) (ptr : Nat)
    (hf : 0 < fuel) (hj : ¬ jumps > MAX_JUMPS)
    (hm : readLabelMetadata buff pos = .ok (.pointer ptr)) (hge : ptr ≥ pos) :
    nameParseLoop buff fuel pos size jumps labels len trace = .error .invalidJump := by
  cases fuel with
  | zero => omega
  | succ fuel =>
    rw [nameParseLoop, if_neg hj, hm]
    simp only [if_pos hge]

theorem loop_trace_backward (buff : List Nat) :
    ∀ fuel pos size jumps labels len trace r,
      (∀ pt ∈ trace, pt.2 < pt.1) →
      nameParseLoop buff fuel pos size jumps labels len trace = .ok r →
      ∀ pt ∈ r.trace, pt.2 < pt.1 := by
  intro fuel
  induction fuel with
  | zero =>
    intro pos size jumps labels len trace r _ h
    simp [nameParseLoop] at h
  | succ fuel ih =>
    intro pos size jumps labels len trace r htr h
    rw [nameParseLoop] at h
    by_cases hmax : jumps > MAX_JUMPS
    · simp [hmax] at h
    rw [if_neg hmax] at h
    cases hm : readLabelMetadata buff pos with
    | error e => rw [hm] at h; simp at h
    | ok m =>
      rw [hm] at h
      cases m with
      | pointer ptr =>
        simp only at h
        by_cases hge : ptr ≥ pos
        · rw [if_pos hge] at h; simp at h
        rw [if_neg hge] at h
        have htr' : ∀ pt ∈ (pos, ptr) :: trace, pt.2 < pt.1 := by
          intro pt hpt
          rcases List.mem_cons.mp hpt with hpt | hpt
          · rw [hpt]; omega
          · exact htr pt hpt
        by_cases hj0 : jumps = 0
        · rw [if_pos hj0] at h
          exact ih ptr (size + 2) (jumps + 1) labels len ((pos, ptr) :: trace) r htr' h
        · rw [if_neg hj0] at h
          exact ih ptr size (jumps + 1) labels len ((pos, ptr) :: trace) r htr' h
      | size s =>
        simp only at h
        by_cases h1 : s > MAX_LABEL_SIZE
        · rw [if_pos h1] at h; simp at h
        rw [if_neg h1] at h
        by_cases h2 : buff.length ≤ pos + s
        · rw [if_pos h2] at h; simp at h
        rw [if_neg h2] at h
        by_cases h3 : len + s > MAX_NAME_SIZE
        · rw [if_pos h3] at h; simp at h
        rw [if_neg h3] at h
        cases hp : pushBytes labels len ((buff.drop (pos + 1)).take s) with
        | error e => rw [hp] at h; simp at h
        | ok pr =>
          rw [hp] at h
          simp only at h
          by_cases hj0 : jumps = 0
          · rw [if_pos hj0] at h
            exact ih (pos + s + 1) (size + s + 1) jumps pr.1 pr.2 trace r htr h
          · rw [if_neg hj0] at h
            exact ih (pos + s + 1) size jumps pr.1 pr.2 trace r htr h
      | done =>
        simp only at h
        by_cases hj0 : jumps = 0
        · rw [if_pos hj0] at h
          cases h
          exact htr
        · rw [if_neg hj0] at h
          cases h
          exact htr

/-- Spec scenario 1: the uncompressed name `hello.world.com.` (with trailing
junk bytes), parsed at offset 0. -/
def exUncompressed : List Nat :=
  [5, 104, 101, 108, 108, 111, 5, 119, 111, 114, 108, 100, 3, 99, 111, 109, 0, 1, 1, 1]

/-- Spec scenario 2: `world.com.` at offset 0, `hello` + backward pointer to
offset 0 at offset 14. -/
def exBackJump : List Nat :=
  [5, 119, 111, 114, 108, 100, 3, 99, 111, 109, 0, 1, 1, 1,
   5, 104, 101, 108, 108, 111, 192, 0, 1, 1, 1, 1, 1, 1]

/-- Spec scenario 3: a forward jump (pointer at offset 6 to offset 10). -/
def exForwardJump : List Nat :=
  [5, 104, 101, 108, 108, 111, 192, 10, 1, 0, 5, 119, 111, 114, 108, 100,
   3, 99, 111, 109, 0, 0, 0, 0]

/-- A chain of six backward pointer hops starting at offset 12. -/
def exSixJumps : List Nat := [0, 0, 192, 0, 192, 2, 192, 4, 192, 6, 192, 8, 192, 10]

/-- The name `hello.world.com.` in hierarchical label order with its
`len` field (16). -/
def helloWorldCom : Name :=
  ⟨[[99, 111, 109], [119, 111, 114, 108, 100], [104, 101, 108, 108, 111]], 16⟩

/-- **C4**: for every successful `Name::parse`, the returned byte count is
the spec's `bytes_consumed` (literal label bytes walked before the first
jump, plus 2 if a jump occurred, plus 1 for the terminator otherwise,
pointer-reached bytes contributing nothing — computed by `walkConsumed`);
in particular the backward-jump example at offset 14 yields
`hello.world.com.` with 8 bytes consumed and the uncompressed example at
offset 0 yields it with 17. -/
theorem claim_C4 :
    (∀ buff pos name n, Name.parse buff pos = .ok (name, n) →
        walkConsumed buff (nameFuel buff) pos = some n) ∧
    Name.parse exBackJump 14 = .ok (helloWorldCom, 8) ∧
    Name.parse exUncompressed 0 = .ok (helloWorldCom, 17) := by
  refine ⟨?_, by rfl, by rfl⟩
  intro buff pos name n h
  rw [Name.parse] at h
  cases hl : nameParseLoop buff (nameFuel buff) pos 0 0 [] 0 [] with
  | error e => rw [hl] at h; simp [Except.map] at h
  | ok r =>
    rw [hl] at h
    simp only [Except.map, Except.ok.injEq] at h
    obtain ⟨w, hw, hsz⟩ := loop_size_walk buff (nameFuel buff) pos 0 [] 0 [] r hl
    have hn : r.size = n := congrArg Prod.snd h
    have hwn : w = n := by omega
    rw [hw, hwn]

/-- Witness for C4: the general byte-count law applied to the backward-jump
example at offset 14. -/
theorem claim_C4_witness :
    walkConsumed exBackJump (nameFuel exBackJump) 14 = some 8 :=
  claim_C4.1 exBackJump 14 helloWorldCom 8 (by rfl)

/-- **C5**: a compression pointer whose target is at or after the pointer
itself makes the parse fail with `InvalidJump` (whatever the loop state),
every pointer followed during a successful parse jumped strictly backwards,
and the spec's forward-jump example is rejected. -/
theorem claim_C5 :
    (∀ buff fuel pos size jumps labels len trace ptr,
        0 < fuel → ¬ jumps > MAX_JUMPS →
        readLabelMetadata buff pos = .ok (.pointer ptr) → ptr ≥ pos →
        nameParseLoop buff fuel pos size jumps labels len trace = .error .invalidJump) ∧
    (∀ buff pos r, nameParseLoop buff (nameFuel buff) pos 0 0 [] 0 [] = .ok r →
        ∀ pt ∈ r.trace, pt.2 < pt.1) ∧
    Name.parse exForwardJump 0 = .error .invalidJump := by
  refine ⟨?_, ?_, by rfl⟩
  · intro buff fuel pos size jumps labels len trace ptr hf hj hm hge
    exact loop_invalid buff fuel pos size jumps labels len trace ptr hf hj hm hge
  · intro buff pos r h
    exact loop_trace_backward buff (nameFuel buff) pos 0 0 [] 0 [] r (by simp) h

/-- Witness for C5: a self-pointing pointer at offset 0 is rejected. -/
theorem claim_C5_witness :
    nameParseLoop [192, 0] 1 0 0 0 [] 0 [] = .error .invalidJump :=
  claim_C5.1 [192, 0] 1 0 0 0 [] 0 [] 0 (by decide) (by decide) (by rfl)
    (by decide)

/-- **C6**: once more than `MAX_JUMPS = 5` pointers have been followed the
parse fails with `ExcesiveJumps(n)`, a successful parse followed at most 5
pointers, and a concrete six-hop chain is rejected with `ExcesiveJumps 6`. -/
theorem claim_C6 :
    (∀ buff fuel pos size jumps labels len trace, 0 < fuel → jumps > MAX_JUMPS →
        nameParseLoop buff fuel pos size jumps labels len trace =
          .error (.excesiveJumps jumps)) ∧
    (∀ buff pos r, nameParseLoop buff (nameFuel buff) pos 0 0 [] 0 [] = .ok r →
        r.jumps ≤ MAX_JUMPS) ∧
    Name.parse exSixJumps 12 = .error (.excesiveJumps 6) := by
  refine ⟨?_, ?_, by rfl⟩
  · intro buff fuel pos size jumps labels len trace hf hj
    exact loop_excessive buff fuel pos size jumps labels len trace hf hj
  · intro buff pos r h
    exact (loop_jumps_le buff (nameFuel buff) pos 0 0 [] 0 [] r h).2

/-- Witness for C6: the jump-counter guard applied at a concrete state with
6 jumps already taken. -/
theorem claim_C6_witness :
    nameParseLoop [] 1 0 0 6 [] 0 [] = .error (.excesiveJumps 6) :=
  claim_C6.1 [] 1 0 0 6 [] 0 [] (by decide) (by decide)

/-- A 63-byte letters-only label. -/
def label63 : List Nat := 97 :: List.replicate 62 98

/-- A wire-format name of four 63-byte labels: 257 bytes in total, over the
255-byte DNS name limit. -/
def exOverlongName : List Nat :=
  (63 :: label63) ++ (63 :: label63) ++ (63 :: label63) ++ (63 :: label63) ++ [0]

set_option maxRecDepth 10000 in
/-- **C7** (code bug): the `NameLength` guard compares `len + s` against 255
but then adds `s + 1` to the `u8` length counter, so a wire name of four
63-byte labels (serialized length 257 > 255) parses successfully — the
counter wraps to 0 instead of failing with `NameLength`; the parsed name's
serialized length is 257. -/
theorem claim_C7 :
    Name.parse exOverlongName 0 =
      .ok (⟨[label63, label63, label63, label63], 0⟩, 257) ∧
    255 < (Name.serialize ⟨[label63, label63, label63, label63], 0⟩ []).length := by
  refine ⟨by rfl, by decide⟩

/-- A resource record with the unimplemented type code 3 (root name,
class IN, ttl 0, rdlen 0). -/
def exUnknownTypeRR : List Nat := [0, 0, 3, 0, 1, 0, 0, 0, 0, 0, 0]

/-- A 23-byte packet (ancount = 1) whose single answer record has the
unimplemented type code 3. -/
def exUnknownTypePacket : List Nat :=
  [0, 0, 0, 0, 0, 0, 0, 1, 0, 0, 0, 0] ++ exUnknownTypeRR

/-- **C2** (code bug): `DnsPacket::try_from` is not total — the
`Type::Unknown(_) => todo!()` arm of `RecordData::parse` is a reachable
panic: this 23-byte input (well under 1024 bytes) reaches it instead of
returning `Ok` or a typed `ParseError`. -/
theorem claim_C2 :
    DnsPacket.tryFrom exUnknownTypePacket = .error .panicTodo ∧
    RType.fromU16 3 = .unknown 3 := by
  exact ⟨by rfl, by rfl⟩

/-- **C3** (code bug): an unimplemented record type code is never stored as
an `Unknown` variant — `RecordData::parse` hits `todo!()` (a panic) for
every `Type::Unknown(_)`, so `ResourceRecord::parse` fails on such records
instead of succeeding. -/
theorem claim_C3 :
    (∀ buff pos n, RecordData.parse buff pos (.unknown n) = .error .panicTodo) ∧
    ResourceRecord.parse exUnknownTypeRR 0 = .error .panicTodo := by
  exact ⟨fun buff pos n => rfl, by rfl⟩

/-! ### Serialize-then-parse round trip -/

theorem get_at_append (pre : List Nat) (x : Nat) (rest : List Nat) :
    (pre ++ x :: rest).get? pre.length = some x := by
  induction pre with
  | nil => rfl
  | cons y ys ih => simpa using ih

theorem drop_at_append (pre : List Nat) (x : Nat) (rest : List Nat) :
    (pre ++ x :: rest).drop (pre.length + 1) = rest := by
  induction pre with
  | nil => rfl
  | cons y ys ih => simp [ih]

theorem take_append_exact (l rest : List Nat) : (l ++ rest).take l.length = l := by
  induction l with
  | nil => rfl
  | cons y ys ih => simp [ih]

/-- Total serialized size of a label list: each label costs its length plus
one prefix byte. -/
def nameByteLen (ls : List (List Nat)) : Nat := (ls.map fun l => l.length + 1).sum

theorem validLabel_pos {l : List Nat} (h : validLabel l = true) : 1 ≤ l.length := by
  cases l with
  | nil => simp [validLabel] at h
  | cons b rest => simp

theorem loop_parses_encoded :
    ∀ (labs : List (List Nat)) (buff pre post : List Nat)
      (fuel size accLen : Nat) (acc : List (List Nat)) (trace : List (Nat × Nat)),
      buff = pre ++ (labs.flatMap fun l => (l.length % 256) :: l) ++ 0 :: post →
      (∀ l ∈ labs, validLabel l = true ∧ l.length ≤ 63) →
      accLen + nameByteLen labs ≤ 255 →
      labs.length < fuel →
      nameParseLoop buff fuel pre.length size 0 acc accLen trace =
        .ok ⟨⟨(acc ++ labs).reverse, accLen + nameByteLen labs⟩,
          size + nameByteLen labs + 1, 0, trace⟩ := by
  intro labs
  induction labs with
  | nil =>
    intro buff pre post fuel size accLen acc trace hbuff hval hlen hfuel
    cases fuel with
    | zero => omega
    | succ fuel =>
      rw [nameParseLoop, if_neg (by simp [MAX_JUMPS])]
      have hmeta : readLabelMetadata buff pre.length = .ok .done := by
        rw [readLabelMetadata, safeU8Read]
        subst hbuff
        simp only [List.flatMap_nil, List.append_nil, get_at_append]
        simp
      rw [hmeta]
      simp only [if_true, nameByteLen, List.map_nil, List.sum_nil, List.append_nil,
        Nat.add_zero]
  | cons l labs ih =>
    intro buff pre post fuel size accLen acc trace hbuff hval hlen hfuel
    cases fuel with
    | zero => omega
    | succ fuel =>
      have hvl : validLabel l = true := (hval l (by simp)).1
      have hl63 : l.length ≤ 63 := (hval l (by simp)).2
      have hl1 : 1 ≤ l.length := validLabel_pos hvl
      have hmod : l.length % 256 = l.length := Nat.mod_eq_of_lt (by omega)
      have hbuff' : buff = pre ++ l.length % 256 ::
          (l ++ ((labs.flatMap fun l => (l.length % 256) :: l) ++ 0 :: post)) := by
        rw [hbuff]
        simp [List.flatMap_cons, List.append_assoc]
      have hnbl : nameByteLen (l :: labs) = l.length + 1 + nameByteLen labs := by
        simp only [nameByteLen, List.map_cons, List.sum_cons]
      rw [nameParseLoop, if_neg (by simp [MAX_JUMPS])]
      have hmeta : readLabelMetadata buff pre.length = .ok (.size l.length) := by
        rw [readLabelMetadata, safeU8Read, hbuff', get_at_append]
        simp only [hmod]
        rw [if_neg (by omega), if_pos (by omega)]
      rw [hmeta]
      simp only
      rw [if_neg (by simp only [MAX_LABEL_SIZE]; omega : ¬ l.length > MAX_LABEL_SIZE)]
      have hblen : ¬ buff.length ≤ pre.length + l.length := by
        rw [hbuff']
        simp only [List.length_append, List.length_cons]
        omega
      rw [if_neg hblen]
      rw [if_neg (by simp only [MAX_NAME_SIZE]; rw [hnbl] at hlen; omega : ¬ accLen + l.length > MAX_NAME_SIZE)]
      have hslice : (buff.drop (pre.length + 1)).take l.length = l := by
        rw [hbuff', drop_at_append, take_append_exact]
      rw [hslice]
      have hpush : pushBytes acc accLen l = .ok (acc ++ [l], accLen + (l.length + 1)) := by
        rw [pushBytes, if_pos hvl, Nat.mod_eq_of_lt (by rw [hnbl] at hlen; omega)]
      rw [hpush]
      simp only [if_true]
      have hpre' : pre.length + l.length + 1 =
          (pre ++ l.length % 256 :: l).length := by
        simp [hmod]
        omega
      rw [hpre']
      have := ih buff (pre ++ l.length % 256 :: l)
        post fuel (size + l.length + 1) (accLen + (l.length + 1)) (acc ++ [l]) trace
        (by rw [hbuff']; simp [List.append_assoc])
        (fun x hx => hval x (by simp [hx]))
        (by rw [hnbl] at hlen; omega)
        (by simp at hfuel ⊢; omega)
      rw [this]
      congr 1
      rw [hnbl]
      simp [List.append_assoc]
      constructor
      · omega
      · omega

theorem u16_at_append (pre : List Nat) (a b : Nat) (rest : List Nat) :
    safeU16Read (pre ++ a :: b :: rest) pre.length = .ok (a * 256 + b) := by
  rw [safeU16Read, get_at_append]
  have h2 : (pre ++ a :: b :: rest).get? (pre.length + 1) = some b := by
    rw [show pre ++ a :: b :: rest = (pre ++ [a]) ++ b :: rest by simp,
      show pre.length + 1 = (pre ++ [a]).length by simp]
    exact get_at_append _ _ _
  rw [h2]

theorem i32_at_append (pre : List Nat) (a b c d : Nat) (rest : List Nat) :
    safeI32Read (pre ++ a :: b :: c :: d :: rest) pre.length =
      .ok (a * 16777216 + b * 65536 + c * 256 + d) := by
  rw [safeI32Read, get_at_append]
  have h1 : (pre ++ a :: b :: c :: d :: rest).get? (pre.length + 1) = some b := by
    rw [show pre ++ a :: b :: c :: d :: rest = (pre ++ [a]) ++ b :: c :: d :: rest by simp,
      show pre.length + 1 = (pre ++ [a]).length by simp]
    exact get_at_append _ _ _
  have h2 : (pre ++ a :: b :: c :: d :: rest).get? (pre.length + 2) = some c := by
    rw [show pre ++ a :: b :: c :: d :: rest = (pre ++ [a, b]) ++ c :: d :: rest by simp,
      show pre.length + 2 = (pre ++ [a, b]).length by simp]
    exact get_at_append _ _ _
  have h3 : (pre ++ a :: b :: c :: d :: rest).get? (pre.length + 3) = some d := by
    rw [show pre ++ a :: b :: c :: d :: rest = (pre ++ [a, b, c]) ++ d :: rest by simp,
      show pre.length + 3 = (pre ++ [a, b, c]).length by simp]
    exact get_at_append _ _ _
  rw [h1, h2, h3]

theorem ipv4_at_append (pre : List Nat) (a b c d : Nat) (rest : List Nat) :
    safeIpv4Read (pre ++ a :: b :: c :: d :: rest) pre.length = .ok (a, b, c, d) := by
  rw [safeIpv4Read, get_at_append]
  have h1 : (pre ++ a :: b :: c :: d :: rest).get? (pre.length + 1) = some b := by
    rw [show pre ++ a :: b :: c :: d :: rest = (pre ++ [a]) ++ b :: c :: d :: rest by simp,
      show pre.length + 1 = (pre ++ [a]).length by simp]
    exact get_at_append _ _ _
  have h2 : (pre ++ a :: b :: c :: d :: rest).get? (pre.length + 2) = some c := by
    rw [show pre ++ a :: b :: c :: d :: rest = (pre ++ [a, b]) ++ c :: d :: rest by simp,
      show pre.length + 2 = (pre ++ [a, b]).length by simp]
    exact get_at_append _ _ _
  have h3 : (pre ++ a :: b :: c :: d :: rest).get? (pre.length + 3) = some d := by
    rw [show pre ++ a :: b :: c :: d :: rest = (pre ++ [a, b, c]) ++ d :: rest by simp,
      show pre.length + 3 = (pre ++ [a, b, c]).length by simp]
    exact get_at_append _ _ _
  rw [h1, h2, h3]

theorem flatMap_enc_length (labs : List (List Nat)) :
    (labs.flatMap fun l => (l.length % 256) :: l).length = labs.length +
      (labs.map List.length).sum := by
  induction labs with
  | nil => rfl
  | cons l ls ih => simp [List.flatMap_cons, ih]; omega

theorem name_parse_serialized (name : Name) (pre post : List Nat)
    (hlab : ∀ l ∈ name.labels, validLabel l = true ∧ l.length ≤ 63)
    (hlen : name.len = nameByteLen name.labels)
    (hle : nameByteLen name.labels ≤ 255) :
    Name.parse (pre ++ Name.serialize name [] ++ post) pre.length =
      .ok (name, name.len + 1) := by
  have hshape : pre ++ Name.serialize name [] ++ post =
      pre ++ (name.labels.reverse.flatMap fun l => (l.length % 256) :: l) ++ 0 :: post := by
    simp [Name.serialize, List.append_assoc]
  have hrev : nameByteLen name.labels.reverse = nameByteLen name.labels := by
    simp only [nameByteLen, List.map_reverse, List.sum_reverse]
  rw [Name.parse, hshape]
  rw [loop_parses_encoded name.labels.reverse _ pre post _ 0 0 [] [] rfl
    (fun l hl => hlab l (List.mem_reverse.mp hl))
    (by omega)
    (by
      have h1 := flatMap_enc_length name.labels.reverse
      simp only [List.length_append, List.length_cons, nameFuel]
      omega)]
  simp only [Except.map, List.nil_append, List.reverse_reverse, Nat.zero_add, hrev]
  rw [← hlen]

theorem ebind_ok {ε α β : Type} (a : α) (f : α → Except ε β) :
    (Except.ok a >>= f : Except ε β) = f a := rfl

theorem ebind_err {ε α β : Type} (e : ε) (f : α → Except ε β) :
    (Except.error e >>= f : Except ε β) = Except.error e := rfl

theorem nameByteLen_split (ls : List (List Nat)) :
    nameByteLen ls = (ls.map List.length).sum + ls.length := by
  induction ls with
  | nil => rfl
  | cons l t ih =>
    simp only [nameByteLen, List.map_cons, List.sum_cons, List.length_cons] at ih ⊢
    omega

theorem name_serialize_length (name : Name)
    (hlen : name.len = nameByteLen name.labels) :
    (Name.serialize name []).length = name.len + 1 := by
  simp only [Name.serialize, List.nil_append, List.length_append, flatMap_enc_length,
    List.length_reverse, List.map_reverse, List.sum_reverse, List.length_cons,
    List.length_nil]
  rw [hlen, nameByteLen_split]
  omega

theorem question_serialize_shape (q : Question) (packet : List Nat) :
    q.serialize packet = packet ++ Name.serialize q.name [] ++
      [q.qtype.toU16 / 256 % 256, q.qtype.toU16 % 256,
       q.class'.toU16 / 256 % 256, q.class'.toU16 % 256] := by
  simp [Question.serialize, pushU16, Name.serialize, List.append_assoc]

theorem question_parse_serialized (q : Question) (pre post : List Nat)
    (hlab : ∀ l ∈ q.name.labels, validLabel l = true ∧ l.length ≤ 63)
    (hnlen : q.name.len = nameByteLen q.name.labels)
    (hnle : nameByteLen q.name.labels ≤ 255)
    (hq : QType.fromU16 q.qtype.toU16 = q.qtype) (hql : q.qtype.toU16 < 65536)
    (hc : Class.fromU16 q.class'.toU16 = q.class') (hcl : q.class'.toU16 < 65536) :
    Question.parse (pre ++ q.serialize [] ++ post) pre.length =
      .ok (q, q.name.len + 1 + 4) := by
  have hbuf : pre ++ q.serialize [] ++ post =
      pre ++ Name.serialize q.name [] ++
        (q.qtype.toU16 / 256 % 256 :: q.qtype.toU16 % 256 ::
          q.class'.toU16 / 256 % 256 :: q.class'.toU16 % 256 :: post) := by
    rw [question_serialize_shape]
    simp [List.append_assoc]
  have hname := name_parse_serialized q.name pre
    (q.qtype.toU16 / 256 % 256 :: q.qtype.toU16 % 256 ::
      q.class'.toU16 / 256 % 256 :: q.class'.toU16 % 256 :: post) hlab hnlen hnle
  rw [Question.parse, hbuf, hname]
  have hq16 : safeU16Read
      (pre ++ Name.serialize q.name [] ++
        (q.qtype.toU16 / 256 % 256 :: q.qtype.toU16 % 256 ::
          q.class'.toU16 / 256 % 256 :: q.class'.toU16 % 256 :: post))
      (pre.length + (q.name.len + 1)) = .ok q.qtype.toU16 := by
    rw [show pre ++ Name.serialize q.name [] ++
        (q.qtype.toU16 / 256 % 256 :: q.qtype.toU16 % 256 ::
          q.class'.toU16 / 256 % 256 :: q.class'.toU16 % 256 :: post) =
        (pre ++ Name.serialize q.name []) ++
        (q.qtype.toU16 / 256 % 256 :: q.qtype.toU16 % 256 ::
          (q.class'.toU16 / 256 % 256 :: q.class'.toU16 % 256 :: post)) from by
      simp [List.append_assoc]]
    rw [show pre.length + (q.name.len + 1) = (pre ++ Name.serialize q.name []).length from by
      simp [name_serialize_length q.name hnlen]]
    rw [u16_at_append]
    congr 1
    omega
  have hc16 : safeU16Read
      (pre ++ Name.serialize q.name [] ++
        (q.qtype.toU16 / 256 % 256 :: q.qtype.toU16 % 256 ::
          q.class'.toU16 / 256 % 256 :: q.class'.toU16 % 256 :: post))
      (pre.length + (q.name.len + 1) + 2) = .ok q.class'.toU16 := by
    rw [show pre ++ Name.serialize q.name [] ++
        (q.qtype.toU16 / 256 % 256 :: q.qtype.toU16 % 256 ::
          q.class'.toU16 / 256 % 256 :: q.class'.toU16 % 256 :: post) =
        (pre ++ Name.serialize q.name [] ++
          [q.qtype.toU16 / 256 % 256, q.qtype.toU16 % 256]) ++
        (q.class'.toU16 / 256 % 256 :: q.class'.toU16 % 256 :: post) from by
      simp [List.append_assoc]]
    rw [show pre.length + (q.name.len + 1) + 2 =
        (pre ++ Name.serialize q.name [] ++
          [q.qtype.toU16 / 256 % 256, q.qtype.toU16 % 256]).length from by
      simp only [List.length_append, List.length_cons, List.length_nil,
        name_serialize_length q.name hnlen]]
    rw [u16_at_append]
    congr 1
    omega
  rw [ebind_ok]
  simp only []
  rw [hq16, ebind_ok]
  rw [hc16, ebind_ok]
  rw [hq, hc]
  rfl

theorem u16_at_offset (pre mid : List Nat) (a b : Nat) (rest : List Nat) :
    safeU16Read (pre ++ mid ++ a :: b :: rest) (pre.length + mid.length) =
      .ok (a * 256 + b) := by
  rw [show pre ++ mid ++ a :: b :: rest = (pre ++ mid) ++ a :: b :: rest from by
    simp [List.append_assoc]]
  rw [show pre.length + mid.length = (pre ++ mid).length from by simp]
  exact u16_at_append _ _ _ _

theorem preamble_serialize_shape (p : RecordPreamble) (packet : List Nat) :
    p.serialize packet = packet ++ Name.serialize p.name [] ++
      [p.rrtype.toU16 / 256 % 256, p.rrtype.toU16 % 256,
       p.class'.toU16 / 256 % 256, p.class'.toU16 % 256,
       p.ttl / 16777216 % 256, p.ttl / 65536 % 256, p.ttl / 256 % 256, p.ttl % 256,
       p.rdlen / 256 % 256, p.rdlen % 256] := by
  simp [RecordPreamble.serialize, pushU16, pushI32, Name.serialize, List.append_assoc]

theorem preamble_parse_serialized (p : RecordPreamble) (pre post : List Nat)
    (hlab : ∀ l ∈ p.name.labels, validLabel l = true ∧ l.length ≤ 63)
    (hnlen : p.name.len = nameByteLen p.name.labels)
    (hnle : nameByteLen p.name.labels ≤ 255)
    (ht : RType.fromU16 p.rrtype.toU16 = p.rrtype) (htl : p.rrtype.toU16 < 65536)
    (hc : Class.fromU16 p.class'.toU16 = p.class') (hcl : p.class'.toU16 < 65536)
    (httl : p.ttl < 4294967296) (hrdl : p.rdlen < 65536) :
    RecordPreamble.parse (pre ++ p.serialize [] ++ post) pre.length =
      .ok (p, p.name.len + 1 + 10) := by
  have hbuf : pre ++ p.serialize [] ++ post =
      pre ++ Name.serialize p.name [] ++
        (p.rrtype.toU16 / 256 % 256 :: p.rrtype.toU16 % 256 ::
         p.class'.toU16 / 256 % 256 :: p.class'.toU16 % 256 ::
         p.ttl / 16777216 % 256 :: p.ttl / 65536 % 256 ::
         p.ttl / 256 % 256 :: p.ttl % 256 ::
         p.rdlen / 256 % 256 :: p.rdlen % 256 :: post) := by
    rw [preamble_serialize_shape]
    simp [List.append_assoc]
  have hname := name_parse_serialized p.name pre
    (p.rrtype.toU16 / 256 % 256 :: p.rrtype.toU16 % 256 ::
     p.class'.toU16 / 256 % 256 :: p.class'.toU16 % 256 ::
     p.ttl / 16777216 % 256 :: p.ttl / 65536 % 256 ::
     p.ttl / 256 % 256 :: p.ttl % 256 ::
     p.rdlen / 256 % 256 :: p.rdlen % 256 :: post) hlab hnlen hnle
  set buff := pre ++ Name.serialize p.name [] ++
      (p.rrtype.toU16 / 256 % 256 :: p.rrtype.toU16 % 256 ::
       p.class'.toU16 / 256 % 256 :: p.class'.toU16 % 256 ::
       p.ttl / 16777216 % 256 :: p.ttl / 65536 % 256 ::
       p.ttl / 256 % 256 :: p.ttl % 256 ::
       p.rdlen / 256 % 256 :: p.rdlen % 256 :: post) with hbuffdef
  have hmid0 : pre.length + (Name.serialize p.name []).length =
      p.name.len + 1 + pre.length := by
    rw [name_serialize_length p.name hnlen]
    omega
  have hread0 : safeU16Read buff (p.name.len + 1 + pre.length) = .ok p.rrtype.toU16 := by
    rw [hbuffdef, ← hmid0, u16_at_offset]
    congr 1
    omega
  have hread2 : safeU16Read buff (p.name.len + 1 + pre.length + 2) = .ok p.class'.toU16 := by
    rw [hbuffdef,
      show pre ++ Name.serialize p.name [] ++
        (p.rrtype.toU16 / 256 % 256 :: p.rrtype.toU16 % 256 ::
         p.class'.toU16 / 256 % 256 :: p.class'.toU16 % 256 ::
         p.ttl / 16777216 % 256 :: p.ttl / 65536 % 256 ::
         p.ttl / 256 % 256 :: p.ttl % 256 ::
         p.rdlen / 256 % 256 :: p.rdlen % 256 :: post) =
        pre ++ (Name.serialize p.name [] ++
          [p.rrtype.toU16 / 256 % 256, p.rrtype.toU16 % 256]) ++
        (p.class'.toU16 / 256 % 256 :: p.class'.toU16 % 256 ::
         p.ttl / 16777216 % 256 :: p.ttl / 65536 % 256 ::
         p.ttl / 256 % 256 :: p.ttl % 256 ::
         p.rdlen / 256 % 256 :: p.rdlen % 256 :: post) from by simp,
      show p.name.len + 1 + pre.length + 2 = pre.length +
        (Name.serialize p.name [] ++
          [p.rrtype.toU16 / 256 % 256, p.rrtype.toU16 % 256]).length from by
        simp only [List.length_append, List.length_cons, List.length_nil,
          name_serialize_length p.name hnlen]
        omega,
      u16_at_offset]
    congr 1
    omega
  have hread4 : safeI32Read buff (p.name.len + 1 + pre.length + 4) = .ok p.ttl := by
    rw [hbuffdef,
      show pre ++ Name.serialize p.name [] ++
        (p.rrtype.toU16 / 256 % 256 :: p.rrtype.toU16 % 256 ::
         p.class'.toU16 / 256 % 256 :: p.class'.toU16 % 256 ::
         p.ttl / 16777216 % 256 :: p.ttl / 65536 % 256 ::
         p.ttl / 256 % 256 :: p.ttl % 256 ::
         p.rdlen / 256 % 256 :: p.rdlen % 256 :: post) =
        (pre ++ Name.serialize p.name [] ++
          [p.rrtype.toU16 / 256 % 256, p.rrtype.toU16 % 256,
           p.class'.toU16 / 256 % 256, p.class'.toU16 % 256]) ++
        (p.ttl / 16777216 % 256 :: p.ttl / 65536 % 256 ::
         p.ttl / 256 % 256 :: p.ttl % 256 ::
         p.rdlen / 256 % 256 :: p.rdlen % 256 :: post) from by simp,
      show p.name.len + 1 + pre.length + 4 =
        (pre ++ Name.serialize p.name [] ++
          [p.rrtype.toU16 / 256 % 256, p.rrtype.toU16 % 256,
           p.class'.toU16 / 256 % 256, p.class'.toU16 % 256]).length from by
        simp only [List.length_append, List.length_cons, List.length_nil,
          name_serialize_length p.name hnlen]
        omega,
      i32_at_append]
    congr 1
    omega
  have hread8 : safeU16Read buff (p.name.len + 1 + pre.length + 8) = .ok p.rdlen := by
    rw [hbuffdef,
      show pre ++ Name.serialize p.name [] ++
        (p.rrtype.toU16 / 256 % 256 :: p.rrtype.toU16 % 256 ::
         p.class'.toU16 / 256 % 256 :: p.class'.toU16 % 256 ::
         p.ttl / 16777216 % 256 :: p.ttl / 65536 % 256 ::
         p.ttl / 256 % 256 :: p.ttl % 256 ::
         p.rdlen / 256 % 256 :: p.rdlen % 256 :: post) =
        (pre ++ Name.serialize p.name [] ++
          [p.rrtype.toU16 / 256 % 256, p.rrtype.toU16 % 256,
           p.class'.toU16 / 256 % 256, p.class'.toU16 % 256,
           p.ttl / 16777216 % 256, p.ttl / 65536 % 256,
           p.ttl / 256 % 256, p.ttl % 256]) ++
        (p.rdlen / 256 % 256 :: p.rdlen % 256 :: post) from by simp,
      show p.name.len + 1 + pre.length + 8 =
        (pre ++ Name.serialize p.name [] ++
          [p.rrtype.toU16 / 256 % 256, p.rrtype.toU16 % 256,
           p.class'.toU16 / 256 % 256, p.class'.toU16 % 256,
           p.ttl / 16777216 % 256, p.ttl / 65536 % 256,
           p.ttl / 256 % 256, p.ttl % 256]).length from by
        simp only [List.length_append, List.length_cons, List.length_nil,
          name_serialize_length p.name hnlen]
        omega,
      u16_at_append]
    congr 1
    omega
  rw [RecordPreamble.parse, hbuf]
  rw [hname, ebind_ok]
  simp only []
  rw [hread0, ebind_ok, hread2, ebind_ok, hread4, ebind_ok, hread8, ebind_ok]
  rw [ht, hc]
  rfl

/-- Names that the parser itself can produce and accept: every label has the
wire charset and size, the cached `len` is consistent, and the total is
within the DNS name limit. -/
def nameOK (n : Name) : Bool :=
  n.labels.all (fun l => validLabel l && decide (l.length ≤ 63)) &&
  decide (n.len = nameByteLen n.labels) && decide (nameByteLen n.labels ≤ 255)

theorem nameOK_spec {n : Name} (h : nameOK n = true) :
    (∀ l ∈ n.labels, validLabel l = true ∧ l.length ≤ 63) ∧
    n.len = nameByteLen n.labels ∧ nameByteLen n.labels ≤ 255 := by
  simp only [nameOK, Bool.and_eq_true, decide_eq_true_eq, List.all_eq_true] at h
  obtain ⟨⟨hl, h1⟩, h2⟩ := h
  exact ⟨fun l hm => by simpa using hl l hm, h1, h2⟩

/-- Questions in the image of the parser: name invariants plus
parser-canonical qtype and class codes. -/
def questionOK (q : Question) : Bool :=
  nameOK q.name &&
  decide (QType.fromU16 q.qtype.toU16 = q.qtype) && decide (q.qtype.toU16 < 65536) &&
  decide (Class.fromU16 q.class'.toU16 = q.class') && decide (q.class'.toU16 < 65536)

/-- RDATA consistent with the record type: an implemented type, a data
variant of that type, and the stored `rdlen` equal to the serialized RDATA
size. -/
def dataOK (rr : ResourceRecord) : Bool :=
  match rr.preamble.rrtype, rr.data with
  | .a, .a _ => decide (rr.preamble.rdlen = 4)
  | .ns, .ns nm => nameOK nm && decide (rr.preamble.rdlen = nm.len + 1)
  | .cname, .cname nm => nameOK nm && decide (rr.preamble.rdlen = nm.len + 1)
  | .mx, .mx pref ex =>
      decide (pref < 65536) && nameOK ex && decide (rr.preamble.rdlen = ex.len + 3)
  | _, _ => false

/-- Resource records in the image of the parser. -/
def rrOK (rr : ResourceRecord) : Bool :=
  nameOK rr.preamble.name &&
  decide (Class.fromU16 rr.preamble.class'.toU16 = rr.preamble.class') &&
  decide (rr.preamble.class'.toU16 < 65536) &&
  decide (rr.preamble.ttl < 4294967296) &&
  dataOK rr

theorem preamble_serialize_length (p : RecordPreamble)
    (hnlen : p.name.len = nameByteLen p.name.labels) :
    (p.serialize []).length = p.name.len + 11 := by
  rw [preamble_serialize_shape]
  simp only [List.nil_append, List.length_append, List.length_cons, List.length_nil,
    name_serialize_length p.name hnlen]

theorem name_serialize_append (n : Name) (packet : List Nat) :
    n.serialize packet = packet ++ n.serialize [] := by
  simp [Name.serialize]

theorem preamble_serialize_append (p : RecordPreamble) (packet : List Nat) :
    p.serialize packet = packet ++ p.serialize [] := by
  rw [preamble_serialize_shape, preamble_serialize_shape]
  simp [List.append_assoc]

theorem rr_roundtrip (rr : ResourceRecord) (h : rrOK rr = true) :
    ∃ out : List Nat,
      (∀ packet, rr.serialize packet = some (packet ++ out)) ∧
      (∀ pre post, ResourceRecord.parse (pre ++ out ++ post) pre.length =
        .ok (rr, out.length)) := by
  obtain ⟨⟨nm, ty, cl, ttl, rdl⟩, D⟩ := rr
  simp only [rrOK, Bool.and_eq_true, decide_eq_true_eq] at h
  obtain ⟨⟨⟨⟨hnm, hcc⟩, hcl⟩, httl⟩, hdata⟩ := h
  obtain ⟨hnmlab, hnmlen, hnmle⟩ := nameOK_spec hnm
  cases ty <;> cases D <;>
    simp only [dataOK, Bool.and_eq_true, decide_eq_true_eq, Bool.false_eq_true] at hdata
  case a.a ip =>
    refine ⟨RecordPreamble.serialize ⟨nm, .a, cl, ttl, rdl⟩ [] ++
      [ip.1, ip.2.1, ip.2.2.1, ip.2.2.2], ?_, ?_⟩
    · intro packet
      rw [ResourceRecord.serialize]
      simp only [RecordData.serialize]
      rw [preamble_serialize_append]
      simp [List.append_assoc]
    · intro pre post
      have hP := preamble_parse_serialized ⟨nm, .a, cl, ttl, rdl⟩ pre
        (ip.1 :: ip.2.1 :: ip.2.2.1 :: ip.2.2.2 :: post) hnmlab hnmlen hnmle
        (by rfl) (by norm_num [RType.toU16]) hcc hcl httl (by show rdl < 65536; omega)
      rw [ResourceRecord.parse,
        show pre ++ (RecordPreamble.serialize ⟨nm, .a, cl, ttl, rdl⟩ [] ++
          [ip.1, ip.2.1, ip.2.2.1, ip.2.2.2]) ++ post =
          pre ++ RecordPreamble.serialize ⟨nm, .a, cl, ttl, rdl⟩ [] ++
          (ip.1 :: ip.2.1 :: ip.2.2.1 :: ip.2.2.2 :: post) from by
            simp [List.append_assoc],
        hP, ebind_ok]
      simp only [RecordData.parse]
      have hip : safeIpv4Read
          (pre ++ RecordPreamble.serialize ⟨nm, .a, cl, ttl, rdl⟩ [] ++
            (ip.1 :: ip.2.1 :: ip.2.2.1 :: ip.2.2.2 :: post))
          (pre.length + (nm.len + 1 + 10)) = .ok (ip.1, ip.2.1, ip.2.2.1, ip.2.2.2) := by
        rw [show pre ++ RecordPreamble.serialize ⟨nm, .a, cl, ttl, rdl⟩ [] ++
            (ip.1 :: ip.2.1 :: ip.2.2.1 :: ip.2.2.2 :: post) =
            (pre ++ RecordPreamble.serialize ⟨nm, .a, cl, ttl, rdl⟩ []) ++
            (ip.1 :: ip.2.1 :: ip.2.2.1 :: ip.2.2.2 :: post) from by
          simp [List.append_assoc],
          show pre.length + (nm.len + 1 + 10) =
            (pre ++ RecordPreamble.serialize ⟨nm, .a, cl, ttl, rdl⟩ []).length from by
          simp only [List.length_append,
            preamble_serialize_length ⟨nm, .a, cl, ttl, rdl⟩ hnmlen]]
        exact ipv4_at_append _ _ _ _ _ _
      rw [hip]
      simp only [Except.map, ebind_ok]
      simp only [List.length_append, List.length_cons, List.length_nil,
        preamble_serialize_length ⟨nm, .a, cl, ttl, rdl⟩ hnmlen]
      rw [hdata]
      rfl
  case ns.ns nm2 =>
    obtain ⟨hnm2, hrdl2⟩ := hdata
    obtain ⟨hlab2, hlen2, hle2⟩ := nameOK_spec hnm2
    refine ⟨RecordPreamble.serialize ⟨nm, .ns, cl, ttl, rdl⟩ [] ++
      Name.serialize nm2 [], ?_, ?_⟩
    · intro packet
      rw [ResourceRecord.serialize]
      simp only [RecordData.serialize]
      rw [name_serialize_append, preamble_serialize_append]
      simp [List.append_assoc]
    · intro pre post
      have hP := preamble_parse_serialized ⟨nm, .ns, cl, ttl, rdl⟩ pre
        (Name.serialize nm2 [] ++ post) hnmlab hnmlen hnmle
        (by rfl) (by norm_num [RType.toU16]) hcc hcl httl (by show rdl < 65536; omega)
      rw [ResourceRecord.parse,
        show pre ++ (RecordPreamble.serialize ⟨nm, .ns, cl, ttl, rdl⟩ [] ++
          Name.serialize nm2 []) ++ post =
          pre ++ RecordPreamble.serialize ⟨nm, .ns, cl, ttl, rdl⟩ [] ++
          (Name.serialize nm2 [] ++ post) from by simp [List.append_assoc],
        hP, ebind_ok]
      simp only [RecordData.parse]
      have hename := name_parse_serialized nm2
        (pre ++ RecordPreamble.serialize ⟨nm, .ns, cl, ttl, rdl⟩ []) post
        hlab2 hlen2 hle2
      rw [show pre ++ RecordPreamble.serialize ⟨nm, .ns, cl, ttl, rdl⟩ [] ++
          (Name.serialize nm2 [] ++ post) =
          (pre ++ RecordPreamble.serialize ⟨nm, .ns, cl, ttl, rdl⟩ []) ++
          Name.serialize nm2 [] ++ post from by simp [List.append_assoc]] at hP ⊢
      rw [show pre.length + (nm.len + 1 + 10) =
          (pre ++ RecordPreamble.serialize ⟨nm, .ns, cl, ttl, rdl⟩ []).length from by
        simp only [List.length_append,
          preamble_serialize_length ⟨nm, .ns, cl, ttl, rdl⟩ hnmlen]]
      rw [hename]
      simp only [Except.map, ebind_ok]
      simp only [List.length_append,
        preamble_serialize_length ⟨nm, .ns, cl, ttl, rdl⟩ hnmlen,
        name_serialize_length nm2 hlen2]
      rw [hrdl2]
      rfl
  case cname.cname nm2 =>
    obtain ⟨hnm2, hrdl2⟩ := hdata
    obtain ⟨hlab2, hlen2, hle2⟩ := nameOK_spec hnm2
    refine ⟨RecordPreamble.serialize ⟨nm, .cname, cl, ttl, rdl⟩ [] ++
      Name.serialize nm2 [], ?_, ?_⟩
    · intro packet
      rw [ResourceRecord.serialize]
      simp only [RecordData.serialize]
      rw [name_serialize_append, preamble_serialize_append]
      simp [List.append_assoc]
    · intro pre post
      have hP := preamble_parse_serialized ⟨nm, .cname, cl, ttl, rdl⟩ pre
        (Name.serialize nm2 [] ++ post) hnmlab hnmlen hnmle
        (by rfl) (by norm_num [RType.toU16]) hcc hcl httl (by show rdl < 65536; omega)
      rw [ResourceRecord.parse,
        show pre ++ (RecordPreamble.serialize ⟨nm, .cname, cl, ttl, rdl⟩ [] ++
          Name.serialize nm2 []) ++ post =
          pre ++ RecordPreamble.serialize ⟨nm, .cname, cl, ttl, rdl⟩ [] ++
          (Name.serialize nm2 [] ++ post) from by simp [List.append_assoc],
        hP, ebind_ok]
      simp only [RecordData.parse]
      have hename := name_parse_serialized nm2
        (pre ++ RecordPreamble.serialize ⟨nm, .cname, cl, ttl, rdl⟩ []) post
        hlab2 hlen2 hle2
      rw [show pre ++ RecordPreamble.serialize ⟨nm, .cname, cl, ttl, rdl⟩ [] ++
          (Name.serialize nm2 [] ++ post) =
          (pre ++ RecordPreamble.serialize ⟨nm, .cname, cl, ttl, rdl⟩ []) ++
          Name.serialize nm2 [] ++ post from by simp [List.append_assoc]] at hP ⊢
      rw [show pre.length + (nm.len + 1 + 10) =
          (pre ++ RecordPreamble.serialize ⟨nm, .cname, cl, ttl, rdl⟩ []).length from by
        simp only [List.length_append,
          preamble_serialize_length ⟨nm, .cname, cl, ttl, rdl⟩ hnmlen]]
      rw [hename]
      simp only [Except.map, ebind_ok]
      simp only [List.length_append,
        preamble_serialize_length ⟨nm, .cname, cl, ttl, rdl⟩ hnmlen,
        name_serialize_length nm2 hlen2]
      rw [hrdl2]
      rfl
  case mx.mx pref ex =>
    obtain ⟨⟨hpref, hex⟩, hrdl2⟩ := hdata
    obtain ⟨hlab2, hlen2, hle2⟩ := nameOK_spec hex
    refine ⟨RecordPreamble.serialize ⟨nm, .mx, cl, ttl, rdl⟩ [] ++
      (pref / 256 % 256 :: pref % 256 :: Name.serialize ex []), ?_, ?_⟩
    · intro packet
      rw [ResourceRecord.serialize]
      simp only [RecordData.serialize]
      rw [show pushU16 (RecordPreamble.serialize ⟨nm, .mx, cl, ttl, rdl⟩ packet) pref =
        (RecordPreamble.serialize ⟨nm, .mx, cl, ttl, rdl⟩ packet) ++
          [pref / 256 % 256, pref % 256] from rfl]
      rw [name_serialize_append, preamble_serialize_append]
      simp [List.append_assoc]
    · intro pre post
      have hP := preamble_parse_serialized ⟨nm, .mx, cl, ttl, rdl⟩ pre
        (pref / 256 % 256 :: pref % 256 :: (Name.serialize ex [] ++ post))
        hnmlab hnmlen hnmle (by rfl) (by norm_num [RType.toU16]) hcc hcl httl (by show rdl < 65536; omega)
      rw [ResourceRecord.parse,
        show pre ++ (RecordPreamble.serialize ⟨nm, .mx, cl, ttl, rdl⟩ [] ++
          (pref / 256 % 256 :: pref % 256 :: Name.serialize ex [])) ++ post =
          pre ++ RecordPreamble.serialize ⟨nm, .mx, cl, ttl, rdl⟩ [] ++
          (pref / 256 % 256 :: pref % 256 :: (Name.serialize ex [] ++ post)) from by
        simp [List.append_assoc],
        hP, ebind_ok]
      simp only [RecordData.parse]
      have hename := name_parse_serialized ex
        (pre ++ RecordPreamble.serialize ⟨nm, .mx, cl, ttl, rdl⟩ [] ++
          [pref / 256 % 256, pref % 256]) post hlab2 hlen2 hle2
      have hbufshape : pre ++ RecordPreamble.serialize ⟨nm, .mx, cl, ttl, rdl⟩ [] ++
          (pref / 256 % 256 :: pref % 256 :: (Name.serialize ex [] ++ post)) =
          pre ++ RecordPreamble.serialize ⟨nm, .mx, cl, ttl, rdl⟩ [] ++
          [pref / 256 % 256, pref % 256] ++ Name.serialize ex [] ++ post := by
        simp [List.append_assoc]
      have hpos2 : pre.length + (nm.len + 1 + 10) + 2 =
          (pre ++ RecordPreamble.serialize ⟨nm, .mx, cl, ttl, rdl⟩ [] ++
            [pref / 256 % 256, pref % 256]).length := by
        simp only [List.length_append, List.length_cons, List.length_nil,
          preamble_serialize_length ⟨nm, .mx, cl, ttl, rdl⟩ hnmlen]
      rw [hbufshape, hpos2, hename, ebind_ok]
      simp only []
      have hpr : safeU16Read
          (pre ++ RecordPreamble.serialize ⟨nm, .mx, cl, ttl, rdl⟩ [] ++
            [pref / 256 % 256, pref % 256] ++ Name.serialize ex [] ++ post)
          (pre.length + (nm.len + 1 + 10)) = .ok pref := by
        rw [show pre ++ RecordPreamble.serialize ⟨nm, .mx, cl, ttl, rdl⟩ [] ++
            [pref / 256 % 256, pref % 256] ++ Name.serialize ex [] ++ post =
            (pre ++ RecordPreamble.serialize ⟨nm, .mx, cl, ttl, rdl⟩ []) ++
            (pref / 256 % 256 :: pref % 256 :: (Name.serialize ex [] ++ post)) from by
          simp [List.append_assoc],
          show pre.length + (nm.len + 1 + 10) =
            (pre ++ RecordPreamble.serialize ⟨nm, .mx, cl, ttl, rdl⟩ []).length from by
          simp only [List.length_append,
            preamble_serialize_length ⟨nm, .mx, cl, ttl, rdl⟩ hnmlen]]
        rw [u16_at_append]
        congr 1
        omega
      rw [hpr, ebind_ok]
      simp only [List.length_append, List.length_cons, List.length_nil,
        preamble_serialize_length ⟨nm, .mx, cl, ttl, rdl⟩ hnmlen,
        name_serialize_length ex hlen2]
      rw [hrdl2]
      rfl

theorem obind_some {α β : Type} (a : α) (f : α → Option β) :
    (Option.some a).bind f = f a := rfl

theorem question_serialize_append (q : Question) (packet : List Nat) :
    q.serialize packet = packet ++ q.serialize [] := by
  rw [question_serialize_shape, question_serialize_shape]
  simp [List.append_assoc]

theorem question_serialize_length (q : Question)
    (hnlen : q.name.len = nameByteLen q.name.labels) :
    (q.serialize []).length = q.name.len + 5 := by
  rw [question_serialize_shape]
  simp only [List.nil_append, List.length_append, List.length_cons, List.length_nil,
    name_serialize_length q.name hnlen]

theorem foldl_serialize_append (qs : List Question) :
    ∀ out, qs.foldl (fun acc q => q.serialize acc) out =
      out ++ qs.foldl (fun acc q => q.serialize acc) [] := by
  induction qs with
  | nil => simp
  | cons q qs ih =>
    intro out
    simp only [List.foldl_cons]
    rw [ih (q.serialize out), ih (q.serialize []), question_serialize_append]
    simp [List.append_assoc]

theorem parseQuestions_serialized (qs : List Question) :
    ∀ pre post : List Nat, qs.all questionOK = true →
      parseQuestions (pre ++ qs.foldl (fun acc q => q.serialize acc) [] ++ post)
        qs.length pre.length =
        .ok (qs, pre.length + (qs.foldl (fun acc q => q.serialize acc) []).length) := by
  induction qs with
  | nil =>
    intro pre post _
    simp [parseQuestions]
  | cons q qs ih =>
    intro pre post hall
    simp only [List.all_cons, Bool.and_eq_true] at hall
    obtain ⟨hq, hqs⟩ := hall
    simp only [questionOK, Bool.and_eq_true, decide_eq_true_eq] at hq
    obtain ⟨⟨⟨⟨hnm, hqt⟩, hqtl⟩, hcc⟩, hcl⟩ := hq
    obtain ⟨hlab, hlen, hle⟩ := nameOK_spec hnm
    have hfold : (q :: qs).foldl (fun acc q => q.serialize acc) [] =
        q.serialize [] ++ qs.foldl (fun acc q => q.serialize acc) [] := by
      simp only [List.foldl_cons]
      exact foldl_serialize_append qs (q.serialize [])
    have hserq := question_parse_serialized q pre
      (qs.foldl (fun acc q => q.serialize acc) [] ++ post) hlab hlen hle hqt hqtl hcc hcl
    rw [hfold, List.length_cons, parseQuestions,
      show pre ++ (q.serialize [] ++ qs.foldl (fun acc q => q.serialize acc) []) ++ post =
        pre ++ q.serialize [] ++ (qs.foldl (fun acc q => q.serialize acc) [] ++ post)
        from by simp [List.append_assoc],
      hserq, ebind_ok]
    simp only []
    rw [show pre.length + (q.name.len + 1 + 4) = (pre ++ q.serialize []).length from by
        simp only [List.length_append, question_serialize_length q hlen],
      show pre ++ q.serialize [] ++ (qs.foldl (fun acc q => q.serialize acc) [] ++ post) =
        (pre ++ q.serialize []) ++ qs.foldl (fun acc q => q.serialize acc) [] ++ post
        from by simp [List.append_assoc],
      ih (pre ++ q.serialize []) post hqs, ebind_ok]
    simp only [List.length_append]
    congr 2
    omega

theorem records_roundtrip (rs : List ResourceRecord) :
    rs.all rrOK = true →
    ∃ bytes : List Nat,
      (∀ out, serializeRecords rs out = some (out ++ bytes)) ∧
      (∀ pre post, parseRecords (pre ++ bytes ++ post) rs.length pre.length =
        .ok (rs, pre.length + bytes.length)) := by
  induction rs with
  | nil =>
    intro _
    exact ⟨[], fun out => by simp [serializeRecords],
      fun pre post => by simp [parseRecords]⟩
  | cons rr rs ih =>
    intro h
    simp only [List.all_cons, Bool.and_eq_true] at h
    obtain ⟨hrr, hrs⟩ := h
    obtain ⟨bytes, hser, hpar⟩ := ih hrs
    obtain ⟨out1, hser1, hpar1⟩ := rr_roundtrip rr hrr
    refine ⟨out1 ++ bytes, ?_, ?_⟩
    · intro out
      simp only [serializeRecords]
      rw [hser1 out, obind_some, hser (out ++ out1)]
      simp [List.append_assoc]
    · intro pre post
      rw [List.length_cons, parseRecords,
        show pre ++ (out1 ++ bytes) ++ post = pre ++ out1 ++ (bytes ++ post) from by
          simp [List.append_assoc],
        hpar1 pre (bytes ++ post), ebind_ok]
      simp only []
      rw [show pre.length + out1.length = (pre ++ out1).length from by simp,
        show pre ++ out1 ++ (bytes ++ post) = (pre ++ out1) ++ bytes ++ post from by
          simp [List.append_assoc],
        hpar (pre ++ out1) post, ebind_ok]
      simp only [List.length_append]
      congr 2
      omega

theorem ebindf_ok {ε α β : Type} (a : α) (f : α → Except ε β) :
    Except.bind (Except.ok a) f = f a := rfl

theorem Flags.toU16_lt (f : Flags) : f.toU16 < 65536 := by
  have hqr : f.qr.val ≤ 1 := by cases f.qr <;> decide
  have hop : f.opcode.val ≤ 6 := by cases f.opcode <;> decide
  have haa : f.aa.val ≤ 1 := by cases f.aa <;> decide
  have htc : f.tc.val ≤ 1 := by cases f.tc <;> decide
  have hrd : f.rd.val ≤ 1 := by cases f.rd <;> decide
  have hra : f.ra.val ≤ 1 := by cases f.ra <;> decide
  have hz : f.z.val ≤ 1 := by cases f.z <;> decide
  have had : f.ad.val ≤ 1 := by cases f.ad <;> decide
  have hcd : f.cd.val ≤ 1 := by cases f.cd <;> decide
  have hrc : f.rcode.val ≤ 5 := by cases f.rcode <;> decide
  rw [Flags.toU16_eq_sum]
  omega

theorem header_serialize_shape (h : DnsHeader) (target : List Nat) :
    h.serialize target = target ++
      [h.id / 256 % 256, h.id % 256,
       h.flags.toU16 / 256 % 256, h.flags.toU16 % 256,
       h.questions / 256 % 256, h.questions % 256,
       h.answers / 256 % 256, h.answers % 256,
       h.authority / 256 % 256, h.authority % 256,
       h.additional / 256 % 256, h.additional % 256] := by
  simp [DnsHeader.serialize, pushU16, List.append_assoc]

theorem header_serialize_length (h : DnsHeader) : (h.serialize []).length = 12 := by
  rw [header_serialize_shape]
  rfl

theorem header_parse_serialized (h : DnsHeader) (post : List Nat)
    (hid : h.id < 65536) (hq : h.questions < 65536) (ha : h.answers < 65536)
    (hau : h.authority < 65536) (had : h.additional < 65536) :
    DnsHeader.tryFrom (h.serialize [] ++ post) = .ok h := by
  obtain ⟨id, flags, qs, ans, aus, ads⟩ := h
  simp only [] at hid hq ha hau had
  have hfl : flags.toU16 < 65536 := Flags.toU16_lt flags
  rw [header_serialize_shape]
  simp only [List.nil_append]
  have hkey : Flags.tryFromU16 ((flags.toU16 / 256 % 256) * 256 + flags.toU16 % 256) =
      .ok flags := by
    rw [show (flags.toU16 / 256 % 256) * 256 + flags.toU16 % 256 = flags.toU16 from by
      omega]
    exact Flags.tryFrom_toU16 flags
  rw [DnsHeader.tryFrom, if_neg (by
    simp only [List.cons_append, List.nil_append, List.length_cons]
    omega)]
  have hred : (do
      let id' ← safeU16Read
        ([id / 256 % 256, id % 256,
          flags.toU16 / 256 % 256, flags.toU16 % 256,
          qs / 256 % 256, qs % 256, ans / 256 % 256, ans % 256,
          aus / 256 % 256, aus % 256, ads / 256 % 256, ads % 256] ++ post) 0
      let fword ← safeU16Read
        ([id / 256 % 256, id % 256,
          flags.toU16 / 256 % 256, flags.toU16 % 256,
          qs / 256 % 256, qs % 256, ans / 256 % 256, ans % 256,
          aus / 256 % 256, aus % 256, ads / 256 % 256, ads % 256] ++ post) 2
      let flags' ← Flags.tryFromU16 fword
      let questions ← safeU16Read
        ([id / 256 % 256, id % 256,
          flags.toU16 / 256 % 256, flags.toU16 % 256,
          qs / 256 % 256, qs % 256, ans / 256 % 256, ans % 256,
          aus / 256 % 256, aus % 256, ads / 256 % 256, ads % 256] ++ post) 4
      let answers ← safeU16Read
        ([id / 256 % 256, id % 256,
          flags.toU16 / 256 % 256, flags.toU16 % 256,
          qs / 256 % 256, qs % 256, ans / 256 % 256, ans % 256,
          aus / 256 % 256, aus % 256, ads / 256 % 256, ads % 256] ++ post) 6
      let authority ← safeU16Read
        ([id / 256 % 256, id % 256,
          flags.toU16 / 256 % 256, flags.toU16 % 256,
          qs / 256 % 256, qs % 256, ans / 256 % 256, ans % 256,
          aus / 256 % 256, aus % 256, ads / 256 % 256, ads % 256] ++ post) 8
      let additional ← safeU16Read
        ([id / 256 % 256, id % 256,
          flags.toU16 / 256 % 256, flags.toU16 % 256,
          qs / 256 % 256, qs % 256, ans / 256 % 256, ans % 256,
          aus / 256 % 256, aus % 256, ads / 256 % 256, ads % 256] ++ post) 10
      pure (⟨id', flags', questions, answers, authority, additional⟩ : DnsHeader)) =
      (Flags.tryFromU16 ((flags.toU16 / 256 % 256) * 256 + flags.toU16 % 256)).bind
        fun fl => .ok ⟨(id / 256 % 256) * 256 + id % 256, fl,
          (qs / 256 % 256) * 256 + qs % 256, (ans / 256 % 256) * 256 + ans % 256,
          (aus / 256 % 256) * 256 + aus % 256, (ads / 256 % 256) * 256 + ads % 256⟩ := by
    rfl
  rw [hred, hkey, ebindf_ok]
  have hfields : ((id / 256 % 256) * 256 + id % 256 = id) ∧
      ((qs / 256 % 256) * 256 + qs % 256 = qs) ∧
      ((ans / 256 % 256) * 256 + ans % 256 = ans) ∧
      ((aus / 256 % 256) * 256 + aus % 256 = aus) ∧
      ((ads / 256 % 256) * 256 + ads % 256 = ads) := by
    refine ⟨by omega, by omega, by omega, by omega, by omega⟩
  rw [hfields.1, hfields.2.1, hfields.2.2.1, hfields.2.2.2.1, hfields.2.2.2.2]

theorem obindM_some {α β : Type} (a : α) (f : α → Option β) :
    ((Option.some a >>= f : Option β)) = f a := rfl

/-- Packets in the image of the parser whose count fields agree with the
section lengths: these are exactly the hypotheses under which
serialize-then-parse can restore the packet. -/
def packetOK (p : DnsPacket) : Bool :=
  decide (p.header.id < 65536) &&
  decide (p.header.questions = p.questions.length) &&
  decide (p.header.answers = p.answers.length) &&
  decide (p.header.authority = p.authority.length) &&
  decide (p.header.additional = p.additional.length) &&
  decide (p.questions.length < 65536) &&
  decide (p.answers.length < 65536) &&
  decide (p.authority.length < 65536) &&
  decide (p.additional.length < 65536) &&
  p.questions.all questionOK &&
  p.answers.all rrOK &&
  p.authority.all rrOK &&
  p.additional.all rrOK

theorem packet_roundtrip (p : DnsPacket) (h : packetOK p = true) :
    ∃ out, DnsPacket.toBytes p = some out ∧ DnsPacket.tryFrom out = .ok p := by
  simp only [packetOK, Bool.and_eq_true, decide_eq_true_eq] at h
  obtain ⟨⟨⟨⟨⟨⟨⟨⟨⟨⟨⟨⟨hid, h2⟩, h3⟩, h4⟩, h5⟩, h6⟩, h7⟩, h8⟩, h9⟩, hqok⟩,
    hansok⟩, hauok⟩, hadok⟩ := h
  obtain ⟨ansB, hansS, hansP⟩ := records_roundtrip p.answers hansok
  obtain ⟨auB, hauS, hauP⟩ := records_roundtrip p.authority hauok
  obtain ⟨adB, hadS, hadP⟩ := records_roundtrip p.additional hadok
  refine ⟨p.header.serialize [] ++
    ((p.questions.foldl (fun acc q => q.serialize acc) []) ++ (ansB ++ (auB ++ adB))),
    ?_, ?_⟩
  · rw [DnsPacket.toBytes]
    rw [foldl_serialize_append p.questions (p.header.serialize []),
      hansS (p.header.serialize [] ++ p.questions.foldl (fun acc q => q.serialize acc) []),
      obindM_some,
      hauS _, obindM_some, hadS _, obindM_some]
    simp [List.append_assoc]
  · rw [DnsPacket.tryFrom,
      header_parse_serialized p.header _ hid (by rw [h2]; exact h6) (by rw [h3]; exact h7)
        (by rw [h4]; exact h8) (by rw [h5]; exact h9),
      ebind_ok]
    simp only []
    rw [h2, show (12 : Nat) = (p.header.serialize []).length from
      (header_serialize_length p.header).symm]
    rw [show p.header.serialize [] ++
        ((p.questions.foldl (fun acc q => q.serialize acc) []) ++ (ansB ++ (auB ++ adB))) =
        p.header.serialize [] ++ (p.questions.foldl (fun acc q => q.serialize acc) []) ++
        (ansB ++ (auB ++ adB)) from by simp [List.append_assoc]]
    rw [parseQuestions_serialized p.questions (p.header.serialize [])
      (ansB ++ (auB ++ adB)) hqok, ebind_ok]
    simp only []
    rw [h3, show (p.header.serialize []).length +
        (p.questions.foldl (fun acc q => q.serialize acc) []).length =
        (p.header.serialize [] ++ p.questions.foldl (fun acc q => q.serialize acc) []).length
        from by simp]
    rw [show p.header.serialize [] ++ (p.questions.foldl (fun acc q => q.serialize acc) []) ++
        (ansB ++ (auB ++ adB)) =
        (p.header.serialize [] ++ p.questions.foldl (fun acc q => q.serialize acc) []) ++
        ansB ++ (auB ++ adB) from by simp [List.append_assoc]]
    rw [hansP _ (auB ++ adB), ebind_ok]
    simp only []
    rw [h4, show (p.header.serialize [] ++
        p.questions.foldl (fun acc q => q.serialize acc) []).length + ansB.length =
        ((p.header.serialize [] ++ p.questions.foldl (fun acc q => q.serialize acc) []) ++
        ansB).length from by simp; omega]
    rw [show (p.header.serialize [] ++ p.questions.foldl (fun acc q => q.serialize acc) []) ++
        ansB ++ (auB ++ adB) =
        ((p.header.serialize [] ++ p.questions.foldl (fun acc q => q.serialize acc) []) ++
        ansB) ++ auB ++ adB from by simp [List.append_assoc]]
    rw [hauP _ adB, ebind_ok]
    simp only []
    rw [h5, show ((p.header.serialize [] ++
        p.questions.foldl (fun acc q => q.serialize acc) []) ++ ansB).length + auB.length =
        (((p.header.serialize [] ++ p.questions.foldl (fun acc q => q.serialize acc) []) ++
        ansB) ++ auB).length from by simp; omega]
    rw [show ((p.header.serialize [] ++ p.questions.foldl (fun acc q => q.serialize acc) []) ++
        ansB) ++ auB ++ adB =
        (((p.header.serialize [] ++ p.questions.foldl (fun acc q => q.serialize acc) []) ++
        ansB) ++ auB) ++ adB ++ [] from by simp [List.append_assoc]]
    rw [hadP _ [], ebind_ok]
    rfl

/-- All-zero flags (standard query, no error). -/
def zeroFlags : Flags :=
  ⟨.query, .query, .nonAuthoritative, .notTruncated, .notDesired, .notAvailable,
   .zero, .notAuthentic, .enabled, .noError⟩

/-- A packet whose question section holds one (parser-accepted) question but
whose header `qdcount` is 0: every label, RDATA variant and flag value is
accepted by the parser, yet serialize-then-parse loses the question. -/
def cexPacket : DnsPacket :=
  ⟨⟨0, zeroFlags, 0, 0, 0, 0⟩, [⟨⟨[], 0⟩, .a, .cin⟩], [], [], []⟩

/-- Counterexample for **C1** as stated: `cexPacket` has accepted labels
(the root name), accepted flags (all zero) and no RDATA at all, but
serializing and re-parsing drops its question (the serializer emits the
question while the parser trusts the `qdcount = 0` field), so the reparsed
packet is not structurally equal to the original. -/
theorem claim_C1_counterexample :
    DnsPacket.toBytes cexPacket =
      some [0, 0, 0, 0, 0, 0, 0, 0, 0, 0, 0, 0, 0, 0, 1, 0, 1] ∧
    DnsPacket.tryFrom [0, 0, 0, 0, 0, 0, 0, 0, 0, 0, 0, 0, 0, 0, 1, 0, 1] =
      .ok ⟨⟨0, zeroFlags, 0, 0, 0, 0⟩, [], [], [], []⟩ ∧
    (⟨⟨0, zeroFlags, 0, 0, 0, 0⟩, [], [], [], []⟩ : DnsPacket) ≠ cexPacket := by
  refine ⟨by rfl, by rfl, by decide⟩

/-- **C1** (amended): the claim additionally needs the header count fields
to equal the section lengths and each record's stored `rdlen` to equal its
RDATA's serialized size (with the data variant matching the record type) —
`packetOK` states exactly these parser-image conditions.  Under them,
serializing a `DnsPacket` succeeds and re-parsing the bytes returns a
structurally equal packet. -/
theorem claim_C1 (p : DnsPacket) (h : packetOK p = true) :
    ∃ out, DnsPacket.toBytes p = some out ∧ DnsPacket.tryFrom out = .ok p :=
  packet_roundtrip p h

/-- The canonical `hello.world.com A IN` query as a packet value. -/
def helloQueryPacket : DnsPacket :=
  ⟨⟨4660, ⟨.query, .query, .nonAuthoritative, .notTruncated, .desired, .notAvailable,
    .zero, .notAuthentic, .enabled, .noError⟩, 1, 0, 0, 0⟩,
   [⟨helloWorldCom, .a, .cin⟩], [], [], []⟩

/-- Witness for C1: the amended round trip applied to the canonical
33-byte query packet. -/
theorem claim_C1_witness :
    ∃ out, DnsPacket.toBytes helloQueryPacket = some out ∧
      DnsPacket.tryFrom out = .ok helloQueryPacket :=
  claim_C1 helloQueryPacket (by decide)

theorem data_serialize_append (d : RecordData) (packet dout : List Nat)
    (h : d.serialize [] = some dout) : d.serialize packet = some (packet ++ dout) := by
  cases d with
  | a ip =>
    simp only [RecordData.serialize, Option.some.injEq, List.nil_append] at h ⊢
    rw [h]
  | ns nm =>
    simp only [RecordData.serialize, Option.some.injEq] at h ⊢
    rw [name_serialize_append, h]
  | cname nm =>
    simp only [RecordData.serialize, Option.some.injEq] at h ⊢
    rw [name_serialize_append, h]
  | mx pref ex =>
    simp only [RecordData.serialize, Option.some.injEq] at h ⊢
    rw [show pushU16 packet pref = packet ++ [pref / 256 % 256, pref % 256] from rfl,
      name_serialize_append]
    rw [show pushU16 [] pref = [pref / 256 % 256, pref % 256] from rfl,
      name_serialize_append] at h
    rw [← h]
    simp [List.append_assoc]
  | unknown bs => simp [RecordData.serialize] at h

/-- **C10**: serializing a `ResourceRecord` emits the *stored* `rdlen`
verbatim as the big-endian RDLENGTH field, immediately followed by the
serialized RDATA — it is never recomputed from the data; hence whenever the
stored `rdlen` differs from the RDATA's serialized size, the emitted
RDLENGTH value and the emitted RDATA byte count disagree. -/
theorem claim_C10 :
    (∀ (rr : ResourceRecord) (packet dout : List Nat),
        rr.data.serialize [] = some dout →
        rr.serialize packet =
          some (packet ++ Name.serialize rr.preamble.name [] ++
            [rr.preamble.rrtype.toU16 / 256 % 256, rr.preamble.rrtype.toU16 % 256,
             rr.preamble.class'.toU16 / 256 % 256, rr.preamble.class'.toU16 % 256,
             rr.preamble.ttl / 16777216 % 256, rr.preamble.ttl / 65536 % 256,
             rr.preamble.ttl / 256 % 256, rr.preamble.ttl % 256,
             rr.preamble.rdlen / 256 % 256, rr.preamble.rdlen % 256] ++ dout)) ∧
    (∀ (rr : ResourceRecord) (dout : List Nat),
        rr.data.serialize [] = some dout →
        rr.preamble.rdlen < 65536 →
        rr.preamble.rdlen ≠ dout.length →
        (rr.preamble.rdlen / 256 % 256) * 256 + rr.preamble.rdlen % 256 ≠ dout.length) := by
  constructor
  · intro rr packet dout h
    rw [ResourceRecord.serialize, data_serialize_append rr.data _ dout h,
      preamble_serialize_shape]
  · intro rr dout _ hlt hne
    omega

/-- Witness for C10: an A record whose stored `rdlen` is 5 although its
RDATA serializes to 4 bytes — the emitted RDLENGTH (5) disagrees with the
emitted RDATA byte count (4). -/
theorem claim_C10_witness :
    ((⟨⟨⟨[], 0⟩, .a, .cin, 0, 5⟩, .a (1, 2, 3, 4)⟩ :
      ResourceRecord).preamble.rdlen / 256 % 256) * 256 +
      (⟨⟨⟨[], 0⟩, .a, .cin, 0, 5⟩, .a (1, 2, 3, 4)⟩ :
      ResourceRecord).preamble.rdlen % 256 ≠ ([1, 2, 3, 4] : List Nat).length :=
  claim_C10.2 ⟨⟨⟨[], 0⟩, .a, .cin, 0, 5⟩, .a (1, 2, 3, 4)⟩ [1, 2, 3, 4]
    (by rfl) (by decide) (by decide)

end Dominion
